import Mathlib

/-!
# Custom object API: `pkg/apiserver/custom_objects.go`

A shallow embedding of the custom-object handler and its etcd-backed registry.

Modelling conventions.

* A Go `string` is a Lean `String`; `[]byte(s)` and `string(b)` are the identity.
* A Go `(T, error)` result is an `Except GoError T`; a lone `error` result is an
  `Option GoError` (`none` is `nil`).
* An interface value is a record of its methods. A method that may touch the
  outside world takes the world state `σ` and returns the new one.
* The `http.ResponseWriter` is the list of writes made so far, oldest first.
* `ServeHTTP` additionally returns the list of interface calls it made, in
  call order; this trace is ghost state used to phrase "no call is made".
* A run-time panic (`req.URL.Path[1:]` on an empty path) is `none`.
-/

namespace CustomObjects

/-! ## Data model (`pkg/api`) -/

/-- One field of a schema version: `api.Field`. -/
structure Field where
  Name : String
  Type' : String := ""
deriving DecidableEq, Repr

/-- The field list of one schema version: `api.SchemaSpec`. -/
structure SchemaSpec where
  Fields : List Field
deriving DecidableEq, Repr

/-- A named schema version: `api.Version`. -/
structure Version where
  Name : String
  Spec : SchemaSpec
deriving DecidableEq, Repr

/-- A schema with its ordered version list: `api.Schema`. -/
structure Schema where
  Name : String
  Versions : List Version
deriving DecidableEq, Repr

/-- A stored custom object: `api.CustomObjectData` (`Name` is `ObjectMeta.Name`). -/
structure CustomObjectData where
  Name : String
  Version : String
  Data : String
deriving DecidableEq, Repr

/-! ## Status objects and errors (`pkg/api`, `pkg/api/errors`, `net/http`) -/

/-- The constant `http.StatusOK`. -/
def StatusOK : Nat := 200

/-- The constant `http.StatusBadRequest`. -/
def StatusBadRequest : Nat := 400

/-- The constant `http.StatusNotFound`. -/
def StatusNotFound : Nat := 404

/-- The constant `http.StatusInternalServerError`. -/
def StatusInternalServerError : Nat := 500

/-- Modelled from the spec: the status object `api.Status` sent on every error
response, "a status object with a numeric code and message"; `Reason` is one of
the spec's error classes (`"BadRequest"`, `"NotFound"`, `"InternalError"`). -/
structure Status where
  Code : Nat
  Reason : String
  Message : String
deriving DecidableEq, Repr

/-- A Go `error` value: either an `*errors.StatusError`, which carries its own
`api.Status`, or any other error, known by its message. -/
inductive GoError where
  | status (s : Status)
  | other (msg : String)
deriving DecidableEq, Repr

/-- The method `err.Error()`. -/
def GoError.Error : GoError → String
  | .status s => s.Message
  | .other msg => msg

/-- Modelled from the spec: `errors.NewBadRequest(reason)` of `pkg/api/errors`,
the malformed-input error class, carried with the HTTP code 400. -/
def NewBadRequest (reason : String) : GoError :=
  .status { Code := StatusBadRequest, Reason := "BadRequest", Message := reason }

/-- Modelled from the spec: `errors.NewInternalError(err)` of `pkg/api/errors`,
the internal error class, carried with the HTTP code 500. -/
def NewInternalError (err : GoError) : GoError :=
  .status { Code := StatusInternalServerError, Reason := "InternalError",
            Message := "Internal error occurred: " ++ err.Error }

/-- Modelled from the spec: `errToAPIStatus(err)` of `pkg/apiserver`. A status
error is reported as its own status ("the store's own classification"); any
other error is an internal server error with the error's message. -/
def errToAPIStatus : GoError → Status
  | .status s => s
  | .other msg => { Code := StatusInternalServerError, Reason := "", Message := msg }

/-- Whether an error is of the BadRequest (malformed-input) class. -/
def IsBadRequest (err : GoError) : Prop :=
  ∃ reason, err = NewBadRequest reason

/-! ## The response writer -/

/-- What one write puts in the response body. -/
inductive Body where
  | status (s : Status)
  | raw (data : String)
  | notFound
deriving DecidableEq, Repr

/-- One write to the `http.ResponseWriter`: `WriteHeader(Code)` then the body. -/
structure Write where
  Code : Nat
  Body : Body
deriving DecidableEq, Repr

/-- The `http.ResponseWriter`: the writes made so far. -/
abbrev ResponseWriter := List Write

/-- Modelled from the spec: `writeJSON(statusCode, codec, object, w)` of
`pkg/apiserver`, which writes the header `statusCode` and the encoded object. -/
def writeJSON (statusCode : Nat) (object : Status) (w : ResponseWriter) : ResponseWriter :=
  w ++ [{ Code := statusCode, Body := .status object }]

/-- Modelled from the spec: `notFound(w, req)` of `pkg/apiserver`, the plain
not-found response. -/
def notFound (w : ResponseWriter) : ResponseWriter :=
  w ++ [{ Code := StatusNotFound, Body := .notFound }]

/-- The function `badRequest(req, w, codec, action, reason)`. -/
def badRequest (w : ResponseWriter) (reason : String) : ResponseWriter :=
  let err := NewBadRequest reason
  let status := errToAPIStatus err
  writeJSON status.Code status w

/-- The function `writeRawJSONData(w, data)`. -/
def writeRawJSONData (w : ResponseWriter) (data : String) : ResponseWriter :=
  w ++ [{ Code := StatusOK, Body := .raw data }]

/-! ## `findVersion` -/

/-- The loop of `findVersion` over `schema.Versions`, in index order. -/
def findVersionLoop (version : String) : List Version → Option SchemaSpec
  | [] => none
  | v :: rest => if v.Name = version then some v.Spec else findVersionLoop version rest

/-- The function `findVersion(schema, version)`; `none` is the `nil` result. -/
def findVersion (schema : Schema) (version : String) : Option SchemaSpec :=
  findVersionLoop version schema.Versions

/-! ## `extractCustomObject` -/

/-- What `json.Unmarshal` stores into an `interface{}`: `nil`, `bool`, `float64`
(kept as the literal's text), `string`, `[]interface{}` or
`map[string]interface{}` (an association list, looked up by first binding). -/
inductive JSONValue where
  | null
  | bool (b : Bool)
  | number (literal : String)
  | string (s : String)
  | array (elems : List JSONValue)
  | object (members : List (String × JSONValue))

/-- An `io.ReadCloser`: what `ioutil.ReadAll` returns on it. -/
structure ReadCloser where
  ReadAll : Except GoError String

/-- The type of `json.Unmarshal(data, &obj)` for `obj` an `interface{}`: the
decoder of `encoding/json` is a parameter of the model. -/
abbrev Unmarshaler := String → Except GoError JSONValue

/-- The function `extractCustomObject(version, rc)`. -/
def extractCustomObject (Unmarshal : Unmarshaler) (version : String) (rc : ReadCloser) :
    Except GoError CustomObjectData :=
  match rc.ReadAll with
  | .error err => .error (NewInternalError err)
  | .ok data =>
    match Unmarshal data with
    | .error err => .error (NewBadRequest err.Error)
    | .ok obj =>
      match obj with
      | .object objMap =>
        match objMap.lookup "name" with
        | some (.string name) => .ok { Name := name, Data := data, Version := version }
        | _ => .error (NewBadRequest "Missing name field.")
      | _ => .error (NewBadRequest "JSON data is not an object.")

/-! ## Registries -/

/-- The interface `schema.Registry`, as far as the handler uses it:
`GetSchema(ctx, name)`. The handler only reads the schema registry, whose
content is fixed while a request is served. -/
structure Registry where
  GetSchema : String → Except GoError Schema

/-- The interface `CustomObjectRegistry` over a world state `σ`. -/
structure CustomObjectRegistry (σ : Type) where
  Get : String → String → σ → Except GoError CustomObjectData × σ
  Set : String → String → CustomObjectData → σ → Option GoError × σ
  Delete : String → String → σ → Option GoError × σ
  List : String → σ → Except GoError (List CustomObjectData) × σ

/-- The struct `CustomObjectHandler`; its `codec` only serialises status
objects inside `writeJSON` and is not modelled. -/
structure CustomObjectHandler (σ : Type) where
  registry : Registry
  customRegistry : CustomObjectRegistry σ

/-- A node of an etcd response: `data.Node.Value` and `keys.Node.Nodes`. -/
inductive EtcdNode where
  | mk (Value : String) (Nodes : List EtcdNode)

/-- The field `node.Value`. -/
def EtcdNode.Value : EtcdNode → String
  | .mk v _ => v

/-- The field `node.Nodes`. -/
def EtcdNode.Nodes : EtcdNode → List EtcdNode
  | .mk _ ns => ns

/-- The interface `tools.EtcdGetSet`, as far as the registry uses it:
`Get(key, sort, recursive)`, `Set(key, value, ttl)`, `Delete(key, recursive)`.
A successful `Get` returns the response's `Node`. -/
structure EtcdGetSet (σ : Type) where
  Get : String → Bool → Bool → σ → Except GoError EtcdNode × σ
  Set : String → String → Nat → σ → Option GoError × σ
  Delete : String → Bool → σ → Option GoError × σ

/-- The interface `runtime.Codec`, at the type `api.CustomObjectData`. -/
structure Codec where
  Encode : CustomObjectData → Except GoError String
  DecodeInto : String → Except GoError CustomObjectData

/-- The struct `etcdObjectRegistry`. -/
structure etcdObjectRegistry (σ : Type) where
  etcd : EtcdGetSet σ
  codec : Codec

/-- The function `makeSchemaKey(schema)`: `fmt.Sprintf("custom/%s", schema)`. -/
def makeSchemaKey (schema : String) : String :=
  "custom/" ++ schema

/-- The function `makeKey(schema, name)`: `fmt.Sprintf("%s/%s", makeSchemaKey(schema), name)`. -/
def makeKey (schema name : String) : String :=
  makeSchemaKey schema ++ "/" ++ name

/-- The method `etcdObjectRegistry.Get`. -/
def etcdObjectRegistry.Get {σ : Type} (e : etcdObjectRegistry σ) (schema name : String)
    (st : σ) : Except GoError CustomObjectData × σ :=
  let r := e.etcd.Get (makeKey schema name) false false st
  match r.1 with
  | .error err => (.error err, r.2)
  | .ok data =>
    match e.codec.DecodeInto data.Value with
    | .error err => (.error err, r.2)
    | .ok obj => (.ok obj, r.2)

/-- The method `etcdObjectRegistry.Set`. -/
def etcdObjectRegistry.Set {σ : Type} (e : etcdObjectRegistry σ) (schema name : String)
    (data : CustomObjectData) (st : σ) : Option GoError × σ :=
  match e.codec.Encode data with
  | .error err => (some err, st)
  | .ok encoded => e.etcd.Set (makeKey schema name) encoded 0 st

/-- The method `etcdObjectRegistry.Delete`. -/
def etcdObjectRegistry.Delete {σ : Type} (e : etcdObjectRegistry σ) (schema name : String)
    (st : σ) : Option GoError × σ :=
  e.etcd.Delete (makeKey schema name) false st

/-- The decoding loop of `etcdObjectRegistry.List` over `keys.Node.Nodes`. -/
def etcdObjectRegistry.ListLoop (codec : Codec) :
    List EtcdNode → List CustomObjectData → Except GoError (List CustomObjectData)
  | [], result => .ok result
  | node :: rest, result =>
    match codec.DecodeInto node.Value with
    | .error err => .error err
    | .ok obj => etcdObjectRegistry.ListLoop codec rest (result ++ [obj])

/-- The method `etcdObjectRegistry.List`. -/
def etcdObjectRegistry.List {σ : Type} (e : etcdObjectRegistry σ) (schema : String)
    (st : σ) : Except GoError (List CustomObjectData) × σ :=
  let r := e.etcd.Get (makeSchemaKey schema) false true st
  match r.1 with
  | .error err => (.error err, r.2)
  | .ok keys => (etcdObjectRegistry.ListLoop e.codec keys.Nodes [], r.2)

/-- The function `NewEtcdCustomObjectRegistry(etcd, codec)`. -/
def NewEtcdCustomObjectRegistry {σ : Type} (etcd : EtcdGetSet σ) (codec : Codec) :
    CustomObjectRegistry σ :=
  let e : etcdObjectRegistry σ := { etcd := etcd, codec := codec }
  { Get := e.Get, Set := e.Set, Delete := e.Delete, List := e.List }

/-- The function `NewCustomObjectHandler(registry, customRegistry, codec)`. -/
def NewCustomObjectHandler {σ : Type} (registry : Registry)
    (customRegistry : CustomObjectRegistry σ) : CustomObjectHandler σ :=
  { registry := registry, customRegistry := customRegistry }

/-! ## Strings (`strings`, slicing) -/

/-- The function `strings.Split` on character lists, for a one-character
separator: the pieces between the separators, one more than there are
separators. -/
def splitChars (sep : Char) : List Char → List (List Char)
  | [] => [[]]
  | c :: cs =>
    if c = sep then [] :: splitChars sep cs
    else
      match splitChars sep cs with
      | seg :: segs => (c :: seg) :: segs
      | [] => [[c]]

/-- The function `strings.Split(s, sep)` for a one-character separator. -/
def Split (s : String) (sep : Char) : List String :=
  (splitChars sep s.data).map String.mk

/-- The slice expression `s[1:]`: it panics (`none`) on the empty string and
otherwise drops the first character (the leading "/" of a request path). -/
def sliceFrom1 (s : String) : Option String :=
  match s.data with
  | [] => none
  | _ :: cs => some (String.mk cs)

/-! ## `CustomObjectHandler.ServeHTTP` -/

/-- An `http.Request`: `req.Method`, `req.URL.Path` and `req.Body`. -/
structure Request where
  Method : String
  Path : String
  Body : ReadCloser

/-- An interface call made by the handler. -/
inductive Call where
  | GetSchema (name : String)
  | Get (schema name : String)
  | Set (schema name : String) (data : CustomObjectData)
  | Delete (schema name : String)
  | List (schema : String)
deriving DecidableEq, Repr

/-- What one run of `ServeHTTP` leaves behind: the response writer, the
interface calls made, in order, and the world state. -/
structure Outcome (σ : Type) where
  w : ResponseWriter
  calls : List Call
  state : σ

/-- The loop of the list branch: it writes each `list[ix].Data` to the buffer,
followed by "," unless `ix+1 == len(list)`. `n` is `len(list)`, `ix` the index
of the head of the remaining list. -/
def writeItems (n : Nat) : Nat → List CustomObjectData → String → String
  | _, [], buff => buff
  | ix, item :: rest, buff =>
    let buff := buff ++ item.Data
    let buff := if ix + 1 ≠ n then buff ++ "," else buff
    writeItems n (ix + 1) rest buff

/-- The buffer that the list branch builds and hands to `writeRawJSONData`. -/
def listBuffer (list : List CustomObjectData) : String :=
  let buff := ""
  let buff := buff ++ "\x7b"
  let buff := buff ++ "\"items\": ["
  let buff := writeItems list.length 0 list buff
  let buff := buff ++ "]"
  let buff := buff ++ "\x7d"
  buff

/-- The method `CustomObjectHandler.ServeHTTP(w, req)`, run in world state `st`. -/
def ServeHTTP {σ : Type} (Unmarshal : Unmarshaler) (c : CustomObjectHandler σ)
    (w : ResponseWriter) (req : Request) (st : σ) : Option (Outcome σ) :=
  match sliceFrom1 req.Path with
  | none => none
  | some path =>
    let parts := Split path '/'
    if parts.length < 3 ∨ parts.length > 4 then
      some { w := badRequest w "Invalid path, expected /custom/<schema>/<version> or /custom/<schema>/<version>/<name>",
             calls := [], state := st }
    else if parts.getD 0 "" ≠ "custom" then
      some { w := badRequest w ("Invalid prefix: " ++ parts.getD 0 ""), calls := [], state := st }
    else
      let schemaName := parts.getD 1 ""
      let version := parts.getD 2 ""
      match c.registry.GetSchema schemaName with
      | .error err =>
        let status := errToAPIStatus err
        some { w := writeJSON status.Code status w, calls := [.GetSchema schemaName], state := st }
      | .ok schema =>
        match findVersion schema version with
        | none => some { w := notFound w, calls := [.GetSchema schemaName], state := st }
        | some _ =>
          if req.Method = "GET" then
            if parts.length = 3 then
              let r := c.customRegistry.List schema.Name st
              match r.1 with
              | .error err =>
                let status := errToAPIStatus err
                some { w := writeJSON status.Code status w,
                       calls := [.GetSchema schemaName, .List schema.Name], state := r.2 }
              | .ok list =>
                some { w := writeRawJSONData w (listBuffer list),
                       calls := [.GetSchema schemaName, .List schema.Name], state := r.2 }
            else
              let r := c.customRegistry.Get schema.Name (parts.getD 3 "") st
              match r.1 with
              | .error err =>
                let status := errToAPIStatus err
                some { w := writeJSON status.Code status w,
                       calls := [.GetSchema schemaName, .Get schema.Name (parts.getD 3 "")],
                       state := r.2 }
              | .ok data =>
                let w :=
                  if data.Version ≠ version then
                    let err := NewBadRequest ("Storage data version " ++ data.Version ++
                      " is not the same as requested version: " ++ version)
                    let status := errToAPIStatus err
                    writeJSON status.Code status w
                  else w
                some { w := writeRawJSONData w data.Data,
                       calls := [.GetSchema schemaName, .Get schema.Name (parts.getD 3 "")],
                       state := r.2 }
          else if req.Method = "POST" then
            match extractCustomObject Unmarshal version req.Body with
            | .error err =>
              let err := NewBadRequest err.Error
              let status := errToAPIStatus err
              some { w := writeJSON status.Code status w, calls := [.GetSchema schemaName],
                     state := st }
            | .ok obj =>
              let r := c.customRegistry.Set schema.Name obj.Name obj st
              match r.1 with
              | some err =>
                let status := errToAPIStatus err
                some { w := writeJSON status.Code status w,
                       calls := [.GetSchema schemaName, .Set schema.Name obj.Name obj],
                       state := r.2 }
              | none =>
                some { w := writeRawJSONData w obj.Data,
                       calls := [.GetSchema schemaName, .Set schema.Name obj.Name obj],
                       state := r.2 }
          else if req.Method = "DELETE" then
            if parts.length ≠ 4 then
              some { w := badRequest w "invalid path", calls := [.GetSchema schemaName],
                     state := st }
            else
              let name := parts.getD 3 ""
              let r := c.customRegistry.Delete schemaName name st
              match r.1 with
              | some err =>
                let status := errToAPIStatus err
                some { w := writeJSON status.Code status w,
                       calls := [.GetSchema schemaName, .Delete schemaName name], state := r.2 }
              | none =>
                some { w := w, calls := [.GetSchema schemaName, .Delete schemaName name],
                       state := r.2 }
          else if req.Method = "PUT" then
            if parts.length ≠ 4 then
              some { w := badRequest w "invalid path", calls := [.GetSchema schemaName],
                     state := st }
            else
              let name := parts.getD 3 ""
              match extractCustomObject Unmarshal version req.Body with
              | .error err =>
                let status := errToAPIStatus err
                some { w := writeJSON status.Code status w, calls := [.GetSchema schemaName],
                       state := st }
              | .ok obj =>
                let r := c.customRegistry.Set schemaName name obj st
                match r.1 with
                | some err =>
                  let status := errToAPIStatus err
                  some { w := writeJSON status.Code status w,
                         calls := [.GetSchema schemaName, .Set schemaName name obj],
                         state := r.2 }
                | none =>
                  some { w := writeRawJSONData w obj.Data,
                         calls := [.GetSchema schemaName, .Set schemaName name obj],
                         state := r.2 }
          else
            some { w := badRequest w ("unsupported method: " ++ req.Method),
                   calls := [.GetSchema schemaName], state := st }

/-! ## Fixtures: the values of the repository's tests and of the spec's examples -/

/-- The schema of `TestFindVersion`: versions `v1` (field `foo`) and `v2` (field `bar`). -/
def testSchema : Schema :=
  { Name := "",
    Versions := [
      { Name := "v1", Spec := { Fields := [{ Name := "foo" }] } },
      { Name := "v2", Spec := { Fields := [{ Name := "bar" }] } }] }

/-- The body `jsonData` of `TestExtractCustomObjects`. -/
def jsonData : String := "\x7b\"name\": \"baz\", \"foo\": \"bar\"\x7d"

/-- The documents a stand-in decoder knows, each with the value that
`json.Unmarshal` stores for it. -/
def sampleDocuments : List (String × JSONValue) :=
  [ (jsonData, .object [("name", .string "baz"), ("foo", .string "bar")]),
    ("\x7b\"missing\": \"name\"\x7d", .object [("missing", .string "name")]),
    ("\x7b\"name\":\"w1\",\"color\":\"red\"\x7d",
      .object [("name", .string "w1"), ("color", .string "red")]),
    ("\x7b\"name\":\"ignored\",\"size\":3\x7d",
      .object [("name", .string "ignored"), ("size", .number "3")]),
    ("\x7b\"name\":\"a/b\"\x7d", .object [("name", .string "a/b")]),
    ("\x7b\"name\":7\x7d", .object [("name", .number "7")]),
    ("[1]", .array [.number "1"]),
    ("null", .null) ]

/-- A stand-in for `json.Unmarshal`: it decodes the sample documents and
reports a syntax error on every other input, the empty one included. -/
def sampleUnmarshal : Unmarshaler := fun data =>
  match sampleDocuments.lookup data with
  | some obj => .ok obj
  | none =>
    if data = "" then .error (.other "unexpected end of JSON input")
    else .error (.other "invalid character looking for beginning of value")

/-- A request body that reads in full as `data`, as `newFakeReadCloser` in the tests. -/
def newFakeReadCloser (data : String) : ReadCloser :=
  { ReadAll := .ok data }

/-- The spec's example schema `widgets`, served in the versions `v1` and `v2`. -/
def widgetsSchema : Schema :=
  { Name := "widgets",
    Versions := [
      { Name := "v1", Spec := { Fields := [{ Name := "color", Type' := "string" }] } },
      { Name := "v2", Spec := { Fields := [{ Name := "size", Type' := "integer" }] } }] }

/-- A schema registry that holds the schema `widgets` and reports every other
name as not found. -/
def widgetsRegistry : Registry :=
  { GetSchema := fun name =>
      if name = "widgets" then .ok widgetsSchema
      else .error (.status { Code := StatusNotFound, Reason := "NotFound",
                             Message := "schema not found: " ++ name }) }

/-- An in-memory key-value store: the bindings, the newest first, one per key. -/
abbrev FakeStore := List (String × String)

/-- An in-memory `tools.EtcdGetSet`. `Set` replaces the binding of the key; a
plain `Get` returns the key's value or a key-not-found error; a recursive `Get`
returns the values bound under `key/` as child nodes. -/
def fakeEtcd : EtcdGetSet FakeStore :=
  { Get := fun key _ recursive st =>
      if recursive then
        (.ok (.mk "" ((st.filter (fun kv => (key ++ "/").data.isPrefixOf kv.1.data)).map
          (fun kv => .mk kv.2 []))), st)
      else
        match st.lookup key with
        | some value => (.ok (.mk value []), st)
        | none => (.error (.status { Code := StatusNotFound, Reason := "NotFound",
                                     Message := "key not found: " ++ key }), st),
    Set := fun key value _ st => (none, (key, value) :: st.filter (fun kv => kv.1 ≠ key)),
    Delete := fun key _ st =>
      match st.lookup key with
      | some _ => (none, st.filter (fun kv => kv.1 ≠ key))
      | none => (some (.status { Code := StatusNotFound, Reason := "NotFound",
                                 Message := "key not found: " ++ key }), st) }

/-- Reads a length written in unary, as that many `x` closed by a bar. -/
def readLength : List Char → Option (Nat × List Char)
  | [] => none
  | c :: cs =>
    if c = '|' then some (0, cs)
    else if c = 'x' then (readLength cs).map (fun r => (r.1 + 1, r.2))
    else none

/-- A codec for the in-memory store: the lengths of `Name` and `Version` in
unary, then `Name`, `Version` and `Data` one after the other. -/
def lengthCodec : Codec :=
  { Encode := fun d =>
      .ok (String.mk (List.replicate d.Name.data.length 'x' ++ '|' ::
        (List.replicate d.Version.data.length 'x' ++ '|' ::
          (d.Name.data ++ (d.Version.data ++ d.Data.data))))),
    DecodeInto := fun s =>
      match readLength s.data with
      | none => .error (.other "malformed object: no name length")
      | some (n, r) =>
        match readLength r with
        | none => .error (.other "malformed object: no version length")
        | some (m, body) =>
          .ok { Name := String.mk (body.take n),
                Version := String.mk ((body.drop n).take m),
                Data := String.mk ((body.drop n).drop m) } }

/-- The handler of the examples: the `widgets` schema registry over the
in-memory store. -/
def widgetsHandler : CustomObjectHandler FakeStore :=
  NewCustomObjectHandler widgetsRegistry (NewEtcdCustomObjectRegistry fakeEtcd lengthCodec)

/-- A request with the given method, path and body, as `http.NewRequest` builds it. -/
def NewRequest (method path body : String) : Request :=
  { Method := method, Path := path, Body := newFakeReadCloser body }

/-- The stored widget of the spec's listing example. -/
def widgetJSON : String := "\x7b\"name\":\"w1\",\"color\":\"red\"\x7d"

/-- The in-memory store holding that widget under version `v1`. -/
def widgetStore : FakeStore :=
  [("custom/widgets/w1", "xx|xx|w1v1" ++ widgetJSON)]

/-- The body of the spec's update example. -/
def updateJSON : String := "\x7b\"name\":\"ignored\",\"size\":3\x7d"

/-- A body whose embedded name holds a slash. -/
def slashJSON : String := "\x7b\"name\":\"a/b\"\x7d"

/-- The in-memory store after `slashJSON` was POSTed to `custom/widgets/v1`. -/
def slashStore : FakeStore :=
  [("custom/widgets/a/b", "xxx|xx|a/bv1" ++ slashJSON)]

/-- A schema registry whose store cannot be reached: every `GetSchema` fails
with an internal error. -/
def unavailableRegistry : Registry :=
  { GetSchema := fun _ =>
      .error (.status { Code := StatusInternalServerError, Reason := "InternalError",
                        Message := "Internal error occurred: store unavailable" }) }

/-- The handler of the examples over the unreachable schema registry. -/
def unavailableHandler : CustomObjectHandler FakeStore :=
  NewCustomObjectHandler unavailableRegistry (NewEtcdCustomObjectRegistry fakeEtcd lengthCodec)

end CustomObjects

/-!
# Third-party controller: `pkg/master/thirdparty_controller.go`

The API surface manager is an interface over a world state `σ`; each run
returns, with its error, the calls it made on that interface, in call order.
-/

namespace Master

open CustomObjects (GoError)

/-- A third-party resource: `expapi.ThirdPartyResource`, with its `ObjectMeta.Name`,
`Description` and the names of its `Versions`. -/
structure ThirdPartyResource where
  Name : String
  Description : String := ""
  Versions : List String := []
deriving DecidableEq, Repr

/-- The `runtime.Object` that `thirdPartyResourceRegistry.List` returns: a
`*expapi.ThirdPartyResourceList` or an object of some other type. -/
inductive RuntimeObject where
  | ThirdPartyResourceList (Items : List ThirdPartyResource)
  | other (description : String)

/-- The interface `APIInterface` over a world state `σ`. -/
structure APIInterface (σ : Type) where
  RemoveAPI : String → σ → σ
  InstallThirdPartyAPI : ThirdPartyResource → σ → Option GoError × σ
  HasAPI : ThirdPartyResource → σ → Except GoError Bool × σ
  ListThirdPartyAPIs : σ → List String × σ

/-- The struct `ThirdPartyController`; `thirdPartyResourceRegistry` is what
`List(ctx, labels.Everything(), fields.Everything())` returns on it. -/
structure ThirdPartyController (σ : Type) where
  master : APIInterface σ
  thirdPartyResourceRegistry : Except GoError RuntimeObject

/-- The functions of other packages that `SyncLoop` calls, parameters of the
model: `thirdpartyresourcedata.ExtractApiGroupAndKind(rsrc)`, which returns
`(kind, group, err)`, and `makeThirdPartyPath(group)`. -/
structure Deps where
  ExtractApiGroupAndKind : ThirdPartyResource → Except GoError (String × String)
  makeThirdPartyPath : String → String

/-- A call on the `APIInterface`. -/
inductive APICall where
  | RemoveAPI (path : String)
  | InstallThirdPartyAPI (rsrc : ThirdPartyResource)
  | HasAPI (rsrc : ThirdPartyResource)
  | ListThirdPartyAPIs
deriving DecidableEq, Repr

/-- The type `util.StringSet`: the strings inserted so far. -/
abbrev StringSet := List String

/-- The method `StringSet.Insert`. -/
def StringSet.Insert (s : StringSet) (item : String) : StringSet :=
  item :: s

/-- The method `StringSet.Has`. -/
def StringSet.Has (s : StringSet) (item : String) : Bool :=
  decide (item ∈ s)

/-- What a run leaves behind: the returned error (`none` is `nil`), the calls
made on the `APIInterface`, in order, and the world state. -/
structure SyncResult (σ : Type) where
  err : Option GoError
  calls : List APICall
  state : σ

/-- The method `ThirdPartyController.SyncOneResource(rsrc)`. -/
def SyncOneResource {σ : Type} (t : ThirdPartyController σ) (rsrc : ThirdPartyResource)
    (st : σ) : SyncResult σ :=
  let r := t.master.HasAPI rsrc st
  match r.1 with
  | .error err => { err := some err, calls := [.HasAPI rsrc], state := r.2 }
  | .ok hasAPI =>
    if !hasAPI then
      let r2 := t.master.InstallThirdPartyAPI rsrc r.2
      { err := r2.1, calls := [.HasAPI rsrc, .InstallThirdPartyAPI rsrc], state := r2.2 }
    else
      { err := none, calls := [.HasAPI rsrc], state := r.2 }

/-- What the loop over `list.Items` leaves behind: the error it returned with,
or the set `existing`; the calls made; the world state. -/
structure ItemsResult (σ : Type) where
  existing : Except GoError StringSet
  calls : List APICall
  state : σ

/-- The loop `for ix := range list.Items` of `SyncLoop`, from the set `existing`
built so far. -/
def syncItems {σ : Type} (t : ThirdPartyController σ) (deps : Deps) :
    List ThirdPartyResource → StringSet → σ → ItemsResult σ
  | [], existing, st => { existing := .ok existing, calls := [], state := st }
  | item :: rest, existing, st =>
    match deps.ExtractApiGroupAndKind item with
    | .error err => { existing := .error err, calls := [], state := st }
    | .ok (_, group) =>
      let existing := existing.Insert (deps.makeThirdPartyPath group)
      let r := SyncOneResource t item st
      match r.err with
      | some err => { existing := .error err, calls := r.calls, state := r.state }
      | none =>
        let r2 := syncItems t deps rest existing r.state
        { existing := r2.existing, calls := r.calls ++ r2.calls, state := r2.state }

/-- The loop `for _, installedAPI := range installed` of `SyncLoop`: the calls
it makes and the state it leaves. -/
def removeStale {σ : Type} (master : APIInterface σ) (existing : StringSet) :
    List String → σ → List APICall × σ
  | [], st => ([], st)
  | installedAPI :: rest, st =>
    if !existing.Has installedAPI then
      let r := removeStale master existing rest (master.RemoveAPI installedAPI st)
      (.RemoveAPI installedAPI :: r.1, r.2)
    else
      removeStale master existing rest st

/-- The method `ThirdPartyController.SyncLoop()`, run in world state `st`. -/
def SyncLoop {σ : Type} (t : ThirdPartyController σ) (deps : Deps) (st : σ) : SyncResult σ :=
  match t.thirdPartyResourceRegistry with
  | .error err => { err := some err, calls := [], state := st }
  | .ok list =>
    match list with
    | .ThirdPartyResourceList items =>
      let r := syncItems t deps items [] st
      match r.existing with
      | .error err => { err := some err, calls := r.calls, state := r.state }
      | .ok existing =>
        let installed := t.master.ListThirdPartyAPIs r.state
        let r2 := removeStale t.master existing installed.1 installed.2
        { err := none, calls := r.calls ++ .ListThirdPartyAPIs :: r2.1, state := r2.2 }
    | .other description =>
      { err := some (.other ("expected a *ThirdPartyResourceList, got " ++ description)),
        calls := [], state := st }

/-- Modelled from the spec: the API surface manager as a set of installed
paths, "a fake implementation tracking installed paths in memory".
`InstallThirdPartyAPI` adds the resource's path, `HasAPI` tests its membership,
`RemoveAPI` deletes a path and `ListThirdPartyAPIs` enumerates the paths; the
path of a resource is `makeThirdPartyPath` of its group. -/
def setMaster (deps : Deps) : APIInterface (List String) :=
  { RemoveAPI := fun path st => st.filter (fun p => p ≠ path),
    InstallThirdPartyAPI := fun rsrc st =>
      match deps.ExtractApiGroupAndKind rsrc with
      | .error err => (some err, st)
      | .ok (_, group) => (none, deps.makeThirdPartyPath group :: st),
    HasAPI := fun rsrc st =>
      match deps.ExtractApiGroupAndKind rsrc with
      | .error err => (.error err, st)
      | .ok (_, group) => (.ok (decide (deps.makeThirdPartyPath group ∈ st)), st),
    ListThirdPartyAPIs := fun st => (st, st) }

/-- The controller over the set of installed paths, with the desired list `items`. -/
def setController (deps : Deps) (items : List ThirdPartyResource) :
    ThirdPartyController (List String) :=
  { master := setMaster deps, thirdPartyResourceRegistry := .ok (.ThirdPartyResourceList items) }

/-- The path set `D` of a desired resource list: the path of each resource
whose group can be extracted. -/
def desiredPaths (deps : Deps) (items : List ThirdPartyResource) : List String :=
  items.filterMap (fun item =>
    match deps.ExtractApiGroupAndKind item with
    | .error _ => none
    | .ok (_, group) => some (deps.makeThirdPartyPath group))

/-- A stand-in for the two functions: a resource name `<kind>.<group>` is cut
at its first dot, a name without a dot is an error, and the path of a group is
`/thirdparty/<group>`. -/
def sampleDeps : Deps :=
  { ExtractApiGroupAndKind := fun rsrc =>
      match CustomObjects.splitChars '.' rsrc.Name.data with
      | kind :: part :: parts =>
        .ok (String.mk kind, String.mk (List.intercalate ['.'] (part :: parts)))
      | _ => .error (.other ("unexpectedly short resource name: " ++ rsrc.Name)),
    makeThirdPartyPath := fun group => "/thirdparty/" ++ group }

/-- A desired list of two resources, of the groups `company.com` and `example.org`. -/
def sampleResources : List ThirdPartyResource :=
  [{ Name := "foo.company.com" }, { Name := "bar.example.org" }]

end Master

/-!
# REST mapping helpers: `pkg/kubectl/kubectl.go`
-/

namespace Kubectl

open CustomObjects (GoError)

/-- The struct `unversioned.GroupVersion`. -/
structure GroupVersion where
  Group : String
  Version : String
deriving DecidableEq, Repr

/-- The struct `unversioned.GroupKind`. -/
structure GroupKind where
  Group : String
  Kind : String
deriving DecidableEq, Repr

/-- The struct `unversioned.GroupVersionKind`. -/
structure GroupVersionKind where
  Group : String
  Version : String
  Kind : String
deriving DecidableEq, Repr

/-- The struct `meta.RESTMapping`, as far as it is named here: the resource
and the group, version and kind it maps. -/
structure RESTMapping where
  Resource : String
  GroupVersionKind : GroupVersionKind
deriving DecidableEq, Repr

/-- The interface `meta.RESTMapper`, as far as the two wrappers use it. -/
structure RESTMapper where
  KindFor : String → Except GoError GroupVersionKind
  ResourceIsValid : String → Bool
  RESTMapping : GroupKind → List String → Except GoError RESTMapping

/-- The struct `OutputVersionMapper`: the embedded mapper and the preferred
output versions. -/
structure OutputVersionMapper where
  RESTMapper : RESTMapper
  OutputVersions : List GroupVersion

/-- The loop `for _, preferredVersion := range m.OutputVersions` of
`RESTMapping`: `some mapping` when it returns from inside, `none` when it ends
or breaks. -/
def OutputVersionMapper.preferred (m : Kubectl.RESTMapper) (gk : GroupKind) :
    List GroupVersion → Option Kubectl.RESTMapping
  | [] => none
  | preferredVersion :: rest =>
    if gk.Group = preferredVersion.Group then
      match m.RESTMapping gk [preferredVersion.Version] with
      | .ok mapping => some mapping
      | .error _ => none
    else
      OutputVersionMapper.preferred m gk rest

/-- The method `OutputVersionMapper.RESTMapping(gk, versions...)`. -/
def OutputVersionMapper.RESTMapping (m : OutputVersionMapper) (gk : GroupKind)
    (versions : List String) : Except GoError Kubectl.RESTMapping :=
  match OutputVersionMapper.preferred m.RESTMapper gk m.OutputVersions with
  | some mapping => .ok mapping
  | none => m.RESTMapper.RESTMapping gk versions

/-- The map `shortForms` of `expandResourceShortcut`. -/
def shortForms : List (String × String) :=
  [ ("cs", "componentstatuses"),
    ("ds", "daemonsets"),
    ("ep", "endpoints"),
    ("ev", "events"),
    ("hpa", "horizontalpodautoscalers"),
    ("ing", "ingresses"),
    ("limits", "limitranges"),
    ("no", "nodes"),
    ("ns", "namespaces"),
    ("po", "pods"),
    ("pvc", "persistentvolumeclaims"),
    ("pv", "persistentvolumes"),
    ("quota", "resourcequotas"),
    ("rc", "replicationcontrollers"),
    ("svc", "services") ]

/-- The function `expandResourceShortcut(resource)`. -/
def expandResourceShortcut (resource : String) : String :=
  match shortForms.lookup resource with
  | some expanded => expanded
  | none => resource

/-- The struct `ShortcutExpander`. -/
structure ShortcutExpander where
  RESTMapper : RESTMapper

/-- The method `ShortcutExpander.KindFor(resource)`. -/
def ShortcutExpander.KindFor (e : ShortcutExpander) (resource : String) :
    Except GoError GroupVersionKind :=
  let resource := expandResourceShortcut resource
  e.RESTMapper.KindFor resource

/-- The method `ShortcutExpander.ResourceIsValid(resource)`. -/
def ShortcutExpander.ResourceIsValid (e : ShortcutExpander) (resource : String) : Bool :=
  e.RESTMapper.ResourceIsValid (expandResourceShortcut resource)

/-- A mapper that knows the kind `Job` of the group `extensions` in the
versions `v1beta1` and `v1`, and the resources `pods` and `services`. -/
def sampleMapper : RESTMapper :=
  { KindFor := fun resource =>
      if resource = "pods" then .ok { Group := "", Version := "v1", Kind := "Pod" }
      else if resource = "services" then .ok { Group := "", Version := "v1", Kind := "Service" }
      else .error (.other ("no resource " ++ resource ++ " has been defined")),
    ResourceIsValid := fun resource => resource = "pods" || resource = "services",
    RESTMapping := fun gk versions =>
      if gk = { Group := "extensions", Kind := "Job" } then
        match versions.find? (fun v => v = "v1beta1" || v = "v1") with
        | some v => .ok { Resource := "jobs",
                          GroupVersionKind := { Group := "extensions", Version := v, Kind := "Job" } }
        | none => .error (.other "no match for the versions")
      else .error (.other "no match for the kind") }

end Kubectl

/-!
# Schema registry: `pkg/registry/schema/registry.go`

A pointer that may be `nil` is an `Option`; a panic is `none`.
-/

namespace SchemaRegistry

open CustomObjects (GoError Schema)

/-- The struct `api.SchemaList`. -/
structure SchemaList where
  Items : List Schema
deriving DecidableEq, Repr

/-- A non-nil `runtime.Object` by its dynamic type: an `*api.Schema`, an
`*api.SchemaList` (either pointer may itself be `nil`) or another type. -/
inductive RuntimeObject where
  | Schema (p : Option Schema)
  | SchemaList (p : Option SchemaList)
  | other (typeName : String)
deriving DecidableEq, Repr

/-- The interface `rest.StandardStorage`, as far as the registry uses it; each
call returns its object (`none` is the `nil` interface) and its error. -/
structure StandardStorage where
  List : Option RuntimeObject × Option GoError
  Get : String → Option RuntimeObject × Option GoError
  Create : Schema → Option RuntimeObject × Option GoError
  Update : Schema → Option RuntimeObject × Option GoError
  Delete : String → Option RuntimeObject × Option GoError

/-- The type assertion `obj.(*api.Schema)`: it panics unless the dynamic type
of `obj` is `*api.Schema`. -/
def assertSchema : Option RuntimeObject → Option (Option Schema)
  | some (.Schema p) => some p
  | _ => none

/-- The type assertion `obj.(*api.SchemaList)`. -/
def assertSchemaList : Option RuntimeObject → Option (Option SchemaList)
  | some (.SchemaList p) => some p
  | _ => none

/-- The method `storage.ListSchemas(ctx, label)`. -/
def ListSchemas (s : StandardStorage) : Option (Option SchemaList × Option GoError) :=
  let r := s.List
  match r.2 with
  | some err => some (none, some err)
  | none => (assertSchemaList r.1).map (fun list => (list, none))

/-- The method `storage.GetSchema(ctx, name)`. -/
def GetSchema (s : StandardStorage) (name : String) : Option (Option Schema × Option GoError) :=
  let r := s.Get name
  match r.2 with
  | some err => some (none, some err)
  | none => (assertSchema r.1).map (fun schema => (schema, none))

/-- The method `storage.CreateSchema(ctx, Schema)`. -/
def CreateSchema (s : StandardStorage) (schema : Schema) :
    Option (Option Schema × Option GoError) :=
  let r := s.Create schema
  (assertSchema r.1).map (fun created => (created, r.2))

/-- The method `storage.UpdateSchema(ctx, Schema)`. -/
def UpdateSchema (s : StandardStorage) (schema : Schema) :
    Option (Option Schema × Option GoError) :=
  let r := s.Update schema
  (assertSchema r.1).map (fun updated => (updated, r.2))

/-- The method `storage.DeleteSchema(ctx, name)`. -/
def DeleteSchema (s : StandardStorage) (name : String) : Option (Option GoError) :=
  let r := s.Delete name
  some r.2

/-- A storage in which every call fails with the error `e` and returns no object. -/
def failingStorage (e : GoError) : StandardStorage :=
  { List := (none, some e),
    Get := fun _ => (none, some e),
    Create := fun _ => (none, some e),
    Update := fun _ => (none, some e),
    Delete := fun _ => (none, some e) }

end SchemaRegistry

/-! # Theorems -/

namespace CustomObjects

/-! ## `findVersion` -/

theorem findVersionLoop_append (v : String) (pre l : List Version)
    (hpre : ∀ x ∈ pre, x.Name ≠ v) :
    findVersionLoop v (pre ++ l) = findVersionLoop v l := by
  induction pre with
  | nil => rfl
  | cons x xs ih =>
    have hx : x.Name ≠ v := hpre x (List.mem_cons_self x xs)
    have hxs : ∀ y ∈ xs, y.Name ≠ v := fun y hy => hpre y (List.mem_cons_of_mem x hy)
    simp [findVersionLoop, hx, ih hxs]

theorem findVersionLoop_eq_none (v : String) (l : List Version) :
    findVersionLoop v l = none ↔ ∀ e ∈ l, e.Name ≠ v := by
  induction l with
  | nil => simp [findVersionLoop]
  | cons x xs ih =>
    by_cases hx : x.Name = v
    · simp [findVersionLoop, hx]
    · simp [findVersionLoop, hx, ih]

theorem findVersionLoop_get (v : String) :
    ∀ (l : List Version) (i : Nat) (h : i < l.length),
      (l.get ⟨i, h⟩).Name = v →
      (∀ (j : Nat) (hj : j < i), (l.get ⟨j, Nat.lt_trans hj h⟩).Name ≠ v) →
      findVersionLoop v l = some (l.get ⟨i, h⟩).Spec := by
  intro l
  induction l with
  | nil => intro i h; exact absurd h (Nat.not_lt_zero i)
  | cons x xs ih =>
    intro i h hi hbefore
    cases i with
    | zero =>
      have hx : x.Name = v := hi
      simp [findVersionLoop, hx]
    | succ k =>
      have hx : x.Name ≠ v := hbefore 0 (Nat.succ_pos k)
      have hk : k < xs.length := Nat.lt_of_succ_lt_succ h
      have hrec := ih k hk hi (fun j hj => hbefore (j + 1) (Nat.succ_lt_succ hj))
      simp [findVersionLoop, hx, hrec]

/-- C1: `findVersion(S, v)` is the `Spec` of the entry of `S.Versions` with the
smallest index whose `Name` is `v`; it is `none` exactly when no entry has
`Name` `v`; and whatever the entries before the first match (none of them named
`v`) and after it are, the result is the `Spec` of that first match. -/
theorem findVersion_first_match (S : Schema) (v : String) :
    (∀ (i : Nat) (h : i < S.Versions.length),
        (S.Versions.get ⟨i, h⟩).Name = v →
        (∀ (j : Nat) (hj : j < i), (S.Versions.get ⟨j, Nat.lt_trans hj h⟩).Name ≠ v) →
        findVersion S v = some (S.Versions.get ⟨i, h⟩).Spec) ∧
    (findVersion S v = none ↔ ∀ e ∈ S.Versions, e.Name ≠ v) ∧
    (∀ (name : String) (pre post : List Version) (e : Version),
        e.Name = v → (∀ x ∈ pre, x.Name ≠ v) →
        findVersion { Name := name, Versions := pre ++ e :: post } v = some e.Spec) := by
  refine ⟨?_, ?_, ?_⟩
  · intro i h hi hbefore
    exact findVersionLoop_get v S.Versions i h hi hbefore
  · exact findVersionLoop_eq_none v S.Versions
  · intro name pre post e he hpre
    show findVersionLoop v (pre ++ e :: post) = some e.Spec
    rw [findVersionLoop_append v pre (e :: post) hpre]
    simp [findVersionLoop, he]

/-- The cases of `TestFindVersion`: `v1` and `v2` give the specs at index 0
and 1, `v3` gives `nil`; obtained from `findVersion_first_match`. -/
theorem findVersion_first_match_witness :
    findVersion testSchema "v2" = some { Fields := [{ Name := "bar" }] } ∧
    findVersion testSchema "v1" = some { Fields := [{ Name := "foo" }] } ∧
    findVersion testSchema "v3" = none := by
  refine ⟨?_, ?_, ?_⟩
  · exact (findVersion_first_match testSchema "v2").1 1 (by decide) (by decide)
      (by intro j hj; have h0 : j = 0 := by omega
          subst h0; show ("v1" : String) ≠ "v2"; decide)
  · exact (findVersion_first_match testSchema "v1").1 0 (by decide) (by decide)
      (by intro j hj; exact absurd hj (Nat.not_lt_zero j))
  · exact (findVersion_first_match testSchema "v3").2.1.2 (by decide)

/-! ## `extractCustomObject` -/

/-- C2: when the body reads without error as `b`, and `b` decodes to a JSON
object whose `"name"` member is the string `n`, `extractCustomObject(v, b)`
succeeds with `Name = n`, `Version = v` and `Data = b`, the body itself. -/
theorem extractCustomObject_ok (Unmarshal : Unmarshaler) (v b n : String) (rc : ReadCloser)
    (members : List (String × JSONValue))
    (hread : rc.ReadAll = .ok b)
    (hjson : Unmarshal b = .ok (.object members))
    (hname : members.lookup "name" = some (.string n)) :
    extractCustomObject Unmarshal v rc = .ok { Name := n, Version := v, Data := b } := by
  simp [extractCustomObject, hread, hjson, hname]

/-- The successful case of `TestExtractCustomObjects`, from `extractCustomObject_ok`. -/
theorem extractCustomObject_ok_witness :
    extractCustomObject sampleUnmarshal "v1" (newFakeReadCloser jsonData)
      = .ok { Name := "baz", Version := "v1", Data := jsonData } :=
  extractCustomObject_ok sampleUnmarshal "v1" jsonData "baz" (newFakeReadCloser jsonData)
    [("name", .string "baz"), ("foo", .string "bar")] rfl rfl rfl

/-- C3: let the body read as `b`, and let the decoder reject the empty input
(as `encoding/json` does). Then `extractCustomObject(v, b)` returns an error of
the BadRequest class, with code 400, and no object when `b` is empty, when the
decoder rejects `b`, when `b` decodes to a value that is not an object, and
when `b` decodes to an object without a `"name"` member holding a string. -/
theorem extractCustomObject_malformed (Unmarshal : Unmarshaler) (v b : String) (rc : ReadCloser)
    (hread : rc.ReadAll = .ok b)
    (hempty : ∃ e, Unmarshal "" = .error e)
    (hbad : b = "" ∨ (∃ e, Unmarshal b = .error e) ∨
      (∃ val, Unmarshal b = .ok val ∧ ∀ m, val ≠ .object m) ∨
      (∃ m, Unmarshal b = .ok (.object m) ∧ ∀ n, m.lookup "name" ≠ some (.string n))) :
    ∃ err, extractCustomObject Unmarshal v rc = .error err ∧ IsBadRequest err ∧
      (errToAPIStatus err).Code = StatusBadRequest := by
  have hrejected : ∀ e, Unmarshal b = .error e →
      ∃ err, extractCustomObject Unmarshal v rc = .error err ∧ IsBadRequest err ∧
        (errToAPIStatus err).Code = StatusBadRequest := by
    intro e he
    exact ⟨NewBadRequest e.Error, by simp [extractCustomObject, hread, he], ⟨e.Error, rfl⟩, rfl⟩
  rcases hbad with hb | ⟨e, he⟩ | ⟨val, hval, hobj⟩ | ⟨m, hm, hnone⟩
  · obtain ⟨e, he⟩ := hempty
    exact hrejected e (by rw [hb]; exact he)
  · exact hrejected e he
  · refine ⟨NewBadRequest "JSON data is not an object.", ?_, ⟨_, rfl⟩, rfl⟩
    cases val with
    | object m => exact absurd rfl (hobj m)
    | null => simp [extractCustomObject, hread, hval]
    | bool x => simp [extractCustomObject, hread, hval]
    | number x => simp [extractCustomObject, hread, hval]
    | string x => simp [extractCustomObject, hread, hval]
    | array x => simp [extractCustomObject, hread, hval]
  · refine ⟨NewBadRequest "Missing name field.", ?_, ⟨_, rfl⟩, rfl⟩
    simp only [extractCustomObject, hread, hm]

/-- The failing cases of `TestExtractCustomObjects` (the empty body, "random
garbage", an object without `name`), and a body that is not an object, from
`extractCustomObject_malformed`. -/
theorem extractCustomObject_malformed_witness :
    (∃ err, extractCustomObject sampleUnmarshal "v1" (newFakeReadCloser "") = .error err ∧
      IsBadRequest err ∧ (errToAPIStatus err).Code = StatusBadRequest) ∧
    (∃ err, extractCustomObject sampleUnmarshal "v1" (newFakeReadCloser "random garbage")
        = .error err ∧
      IsBadRequest err ∧ (errToAPIStatus err).Code = StatusBadRequest) ∧
    (∃ err, extractCustomObject sampleUnmarshal "v1"
        (newFakeReadCloser "\x7b\"missing\": \"name\"\x7d") = .error err ∧
      IsBadRequest err ∧ (errToAPIStatus err).Code = StatusBadRequest) ∧
    (∃ err, extractCustomObject sampleUnmarshal "v1" (newFakeReadCloser "[1]") = .error err ∧
      IsBadRequest err ∧ (errToAPIStatus err).Code = StatusBadRequest) := by
  have hempty : ∃ e, sampleUnmarshal "" = .error e := ⟨_, rfl⟩
  refine ⟨?_, ?_, ?_, ?_⟩
  · exact extractCustomObject_malformed sampleUnmarshal "v1" "" _ rfl hempty (Or.inl rfl)
  · exact extractCustomObject_malformed sampleUnmarshal "v1" "random garbage" _ rfl hempty
      (Or.inr (Or.inl ⟨.other "invalid character looking for beginning of value", rfl⟩))
  · refine extractCustomObject_malformed sampleUnmarshal "v1" _ _ rfl hempty
      (Or.inr (Or.inr (Or.inr ⟨[("missing", .string "name")], rfl, ?_⟩)))
    intro n hn
    simp [List.lookup] at hn
  · refine extractCustomObject_malformed sampleUnmarshal "v1" "[1]" _ rfl hempty
      (Or.inr (Or.inr (Or.inl ⟨.array [.number "1"], rfl, ?_⟩)))
    intro m hm
    cases hm

/-! ## `ServeHTTP`: path and schema resolution -/

theorem splitChars_ne_nil (sep : Char) (l : List Char) : splitChars sep l ≠ [] := by
  cases l with
  | nil => simp [splitChars]
  | cons c cs =>
    by_cases hc : c = sep
    · simp [splitChars, hc]
    · cases hrec : splitChars sep cs <;> simp [splitChars, hc, hrec]

theorem Split_ne_nil (s : String) (sep : Char) : Split s sep ≠ [] := by
  simp [Split, splitChars_ne_nil]

/-- C4: when the path, after its first character is dropped and the rest is
split on "/", has fewer than 3 or more than 4 segments, or a first segment other
than "custom", `ServeHTTP` writes one BadRequest status (code 400), whatever the
method, makes no call on either registry and leaves the world state alone. -/
theorem ServeHTTP_malformed_path {σ : Type} (Unmarshal : Unmarshaler)
    (c : CustomObjectHandler σ) (w : ResponseWriter) (req : Request) (st : σ) (path : String)
    (hpath : sliceFrom1 req.Path = some path)
    (hbad : (Split path '/').length < 3 ∨ (Split path '/').length > 4 ∨
      (Split path '/').head? ≠ some "custom") :
    ∃ reason, ServeHTTP Unmarshal c w req st =
      some { w := w ++ [{ Code := StatusBadRequest,
                          Body := .status { Code := StatusBadRequest, Reason := "BadRequest",
                                            Message := reason } }],
             calls := [], state := st } := by
  by_cases hlen : (Split path '/').length < 3 ∨ (Split path '/').length > 4
  · exact ⟨"Invalid path, expected /custom/<schema>/<version> or /custom/<schema>/<version>/<name>",
      by simp [ServeHTTP, hpath, hlen, badRequest, writeJSON, errToAPIStatus, NewBadRequest]⟩
  · have hhead : (Split path '/').head? ≠ some "custom" := by
      rcases hbad with h | h | h
      · exact absurd (Or.inl h) hlen
      · exact absurd (Or.inr h) hlen
      · exact h
    have hfirst : ¬ ((Split path '/')[0]?.getD "" = "custom") := by
      cases hsplit : Split path '/' with
      | nil => exact absurd hsplit (Split_ne_nil path '/')
      | cons a rest =>
        rw [hsplit] at hhead
        simpa using hhead
    exact ⟨"Invalid prefix: " ++ (Split path '/').getD 0 "",
      by simp [ServeHTTP, hpath, hlen, hfirst, badRequest, writeJSON, errToAPIStatus,
        NewBadRequest]⟩

/-- A two-segment path, `GET /custom/widgets`, is answered with a BadRequest
status and no registry call; from `ServeHTTP_malformed_path`. -/
theorem ServeHTTP_malformed_path_witness :
    ∃ reason, ServeHTTP sampleUnmarshal widgetsHandler [] (NewRequest "GET" "/custom/widgets" "") []
      = some { w := [] ++ [{ Code := StatusBadRequest,
                             Body := .status { Code := StatusBadRequest, Reason := "BadRequest",
                                               Message := reason } }],
               calls := [], state := [] } :=
  ServeHTTP_malformed_path sampleUnmarshal widgetsHandler []
    (NewRequest "GET" "/custom/widgets" "") [] "custom/widgets" rfl (Or.inl (by decide))

/-- C5: on a path `custom/<schema>/<version>[/<name>]`, whatever the method: if
`GetSchema(schema)` returns an error, the only write is the status derived from
that error; if it returns a schema without the version, the only write is the
not-found response (code 404). In both cases the only interface call is
`GetSchema`: nothing is called on the custom object registry, the world state
is unchanged and no raw body is written. -/
theorem ServeHTTP_unresolved {σ : Type} (Unmarshal : Unmarshaler)
    (c : CustomObjectHandler σ) (w : ResponseWriter) (req : Request) (st : σ)
    (path s v : String) (rest : List String)
    (hpath : sliceFrom1 req.Path = some path)
    (hparts : Split path '/' = "custom" :: s :: v :: rest)
    (hrest : rest.length ≤ 1) :
    (∀ err, c.registry.GetSchema s = .error err →
      ServeHTTP Unmarshal c w req st =
        some { w := w ++ [{ Code := (errToAPIStatus err).Code,
                            Body := .status (errToAPIStatus err) }],
               calls := [.GetSchema s], state := st }) ∧
    (∀ S, c.registry.GetSchema s = .ok S → findVersion S v = none →
      ServeHTTP Unmarshal c w req st =
        some { w := w ++ [{ Code := StatusNotFound, Body := .notFound }],
               calls := [.GetSchema s], state := st }) := by
  have hlen : ¬ (rest.length + 1 + 1 + 1 < 3 ∨ rest.length + 1 + 1 + 1 > 4) := by omega
  constructor
  · intro err herr
    simp [ServeHTTP, hpath, hparts, hlen, herr, writeJSON]
  · intro S hS hv
    simp [ServeHTTP, hpath, hparts, hlen, hS, hv, notFound]

/-- An unknown schema gives the registry's not-found status and an unknown
version of `widgets` gives the plain not-found response, with no call on the
custom object registry; from `ServeHTTP_unresolved`. -/
theorem ServeHTTP_unresolved_witness :
    ServeHTTP sampleUnmarshal widgetsHandler [] (NewRequest "DELETE" "/custom/gadgets/v1/g1" "") []
      = some { w := [] ++ [{ Code := StatusNotFound,
                             Body := .status { Code := StatusNotFound, Reason := "NotFound",
                                               Message := "schema not found: gadgets" } }],
               calls := [.GetSchema "gadgets"], state := [] } ∧
    ServeHTTP sampleUnmarshal widgetsHandler [] (NewRequest "GET" "/custom/widgets/v3" "") []
      = some { w := [] ++ [{ Code := StatusNotFound, Body := .notFound }],
               calls := [.GetSchema "widgets"], state := [] } :=
  ⟨(ServeHTTP_unresolved sampleUnmarshal widgetsHandler []
      (NewRequest "DELETE" "/custom/gadgets/v1/g1" "") [] "custom/gadgets/v1/g1" "gadgets" "v1"
      ["g1"] rfl (by decide) (by decide)).1 _ rfl,
   (ServeHTTP_unresolved sampleUnmarshal widgetsHandler []
      (NewRequest "GET" "/custom/widgets/v3" "") [] "custom/widgets/v3" "widgets" "v3"
      [] rfl (by decide) (by decide)).2 widgetsSchema rfl (by decide)⟩

/-! ## `ServeHTTP`: listing -/

theorem intercalate_go_acc (sep : String) :
    ∀ (l : List String) (acc : String),
      String.intercalate.go acc sep l = acc ++ String.intercalate.go "" sep l := by
  intro l
  induction l with
  | nil => intro acc; simp [String.intercalate.go]
  | cons a rest ih =>
    intro acc
    simp only [String.intercalate.go]
    rw [ih (acc ++ sep ++ a), ih ("" ++ sep ++ a)]
    simp [String.append_assoc]

theorem intercalate_cons_cons (sep a b : String) (l : List String) :
    String.intercalate sep (a :: b :: l) = a ++ sep ++ String.intercalate sep (b :: l) := by
  simp only [String.intercalate, String.intercalate.go]
  rw [intercalate_go_acc sep l (a ++ sep ++ b), intercalate_go_acc sep l b]
  simp [String.append_assoc]

theorem writeItems_eq (n : Nat) :
    ∀ (l : List CustomObjectData) (ix : Nat) (buff : String), ix + l.length = n →
      writeItems n ix l buff = buff ++ String.intercalate "," (l.map (fun d => d.Data)) := by
  intro l
  induction l with
  | nil => intro ix buff _; simp [writeItems, String.intercalate]
  | cons d rest ih =>
    intro ix buff hn
    cases rest with
    | nil =>
      have hlast : ix + 1 = n := by simpa using hn
      simp [writeItems, hlast, String.intercalate, String.intercalate.go]
    | cons d' rest' =>
      have hmore : ix + 1 ≠ n := by
        simp only [List.length_cons] at hn
        omega
      have hrec := ih (ix + 1) (buff ++ d.Data ++ ",") (by simp only [List.length_cons] at hn ⊢; omega)
      simp only [writeItems, hmore, ne_eq, not_false_eq_true, if_true] at hrec ⊢
      rw [hrec]
      simp only [List.map_cons]
      rw [intercalate_cons_cons]
      simp [String.append_assoc]

theorem listBuffer_eq (list : List CustomObjectData) :
    listBuffer list =
      "\x7b\"items\": [" ++ String.intercalate "," (list.map (fun d => d.Data)) ++ "]\x7d" := by
  simp only [listBuffer]
  rw [writeItems_eq list.length list 0 _ (by simp)]
  have h1 : ("" ++ "\x7b" ++ "\"items\": [" : String) = "\x7b\"items\": [" := by decide
  have h2 : ("]" ++ "\x7d" : String) = "]\x7d" := by decide
  rw [h1, String.append_assoc _ "]" "\x7d", h2]

/-- C6: a GET on `custom/<schema>/<version>` whose schema and version resolve
and whose registry `List` succeeds with `list` writes exactly one response:
status 200 with the body `{"items": [` ++ the `Data` of the listed objects, in
list order, joined by "," ++ `]}`. The body is `{"items": []}` for the empty
list, and the joined entries are as many as the listed objects. -/
theorem ServeHTTP_list {σ : Type} (Unmarshal : Unmarshaler)
    (c : CustomObjectHandler σ) (w : ResponseWriter) (req : Request) (st : σ)
    (path s v : String) (S : Schema) (spec : SchemaSpec) (list : List CustomObjectData)
    (hmethod : req.Method = "GET")
    (hpath : sliceFrom1 req.Path = some path)
    (hparts : Split path '/' = ["custom", s, v])
    (hschema : c.registry.GetSchema s = .ok S)
    (hversion : findVersion S v = some spec)
    (hlist : (c.customRegistry.List S.Name st).1 = .ok list) :
    ServeHTTP Unmarshal c w req st =
      some { w := w ++ [{ Code := StatusOK,
                          Body := .raw ("\x7b\"items\": [" ++
                            String.intercalate "," (list.map (fun d => d.Data)) ++ "]\x7d") }],
             calls := [.GetSchema s, .List S.Name],
             state := (c.customRegistry.List S.Name st).2 } ∧
    (list.map (fun d => d.Data)).length = list.length ∧
    (list = [] →
      "\x7b\"items\": [" ++ String.intercalate "," (list.map (fun d => d.Data)) ++ "]\x7d"
        = "\x7b\"items\": []\x7d") := by
  refine ⟨?_, by simp, ?_⟩
  · simp [ServeHTTP, hpath, hparts, hschema, hversion, hmethod, hlist, writeRawJSONData,
      listBuffer_eq]
  · intro hnil
    subst hnil
    decide

/-- The spec's listing example: `GET custom/widgets/v1` over a store with the
one widget returns `{"items": [{"name":"w1","color":"red"}]}`; from `ServeHTTP_list`. -/
theorem ServeHTTP_list_witness :
    ServeHTTP sampleUnmarshal widgetsHandler [] (NewRequest "GET" "/custom/widgets/v1" "")
        widgetStore
      = some { w := [{ Code := 200,
                       Body := .raw "\x7b\"items\": [\x7b\"name\":\"w1\",\"color\":\"red\"\x7d]\x7d" }],
               calls := [.GetSchema "widgets", .List "widgets"],
               state := widgetStore } :=
  (ServeHTTP_list sampleUnmarshal widgetsHandler [] (NewRequest "GET" "/custom/widgets/v1" "")
    widgetStore "custom/widgets/v1" "widgets" "v1" widgetsSchema
    { Fields := [{ Name := "color", Type' := "string" }] }
    [{ Name := "w1", Version := "v1", Data := widgetJSON }] rfl rfl (by decide) rfl (by decide)
    rfl).1

/-! ## `ServeHTTP`: creating and updating -/

theorem extractCustomObject_inv (Unmarshal : Unmarshaler) (v : String) (rc : ReadCloser)
    (obj : CustomObjectData) (h : extractCustomObject Unmarshal v rc = .ok obj) :
    rc.ReadAll = .ok obj.Data ∧ obj.Version = v ∧
      ∃ m, Unmarshal obj.Data = .ok (.object m) ∧ m.lookup "name" = some (.string obj.Name) := by
  unfold extractCustomObject at h
  split at h
  · cases h
  · next data hread =>
    split at h
    · cases h
    · next val hjson =>
      split at h
      · next m =>
        split at h
        · next name hname =>
          injection h with h
          subst h
          exact ⟨hread, rfl, m, hjson, hname⟩
        · cases h
      · cases h

/-- C7: a POST whose schema and version resolve. If extraction accepts the body
`b` as `obj`, then `obj.Data = b`, `obj.Version` is the path version, and the
handler makes exactly one registry call, `Set(S.Name, obj.Name, obj)`, keyed by
the body's own name (`S` is the resolved schema); when that `Set` succeeds the
only write is status 200 with the body `b`, and when it fails the only write is
the status of its error. If extraction fails, the only write is a BadRequest
status and no registry call is made. -/
theorem ServeHTTP_post {σ : Type} (Unmarshal : Unmarshaler)
    (c : CustomObjectHandler σ) (w : ResponseWriter) (req : Request) (st : σ)
    (path s v : String) (rest : List String) (S : Schema) (spec : SchemaSpec)
    (hmethod : req.Method = "POST")
    (hpath : sliceFrom1 req.Path = some path)
    (hparts : Split path '/' = "custom" :: s :: v :: rest)
    (hrest : rest.length ≤ 1)
    (hschema : c.registry.GetSchema s = .ok S)
    (hversion : findVersion S v = some spec) :
    (∀ (obj : CustomObjectData) (b : String),
      extractCustomObject Unmarshal v req.Body = .ok obj → req.Body.ReadAll = .ok b →
      obj.Data = b ∧ obj.Version = v ∧
      (∃ m, Unmarshal b = .ok (.object m) ∧ m.lookup "name" = some (.string obj.Name)) ∧
      ((c.customRegistry.Set S.Name obj.Name obj st).1 = none →
        ServeHTTP Unmarshal c w req st =
          some { w := w ++ [{ Code := StatusOK, Body := .raw b }],
                 calls := [.GetSchema s, .Set S.Name obj.Name obj],
                 state := (c.customRegistry.Set S.Name obj.Name obj st).2 }) ∧
      (∀ err, (c.customRegistry.Set S.Name obj.Name obj st).1 = some err →
        ServeHTTP Unmarshal c w req st =
          some { w := w ++ [{ Code := (errToAPIStatus err).Code,
                              Body := .status (errToAPIStatus err) }],
                 calls := [.GetSchema s, .Set S.Name obj.Name obj],
                 state := (c.customRegistry.Set S.Name obj.Name obj st).2 })) ∧
    (∀ err, extractCustomObject Unmarshal v req.Body = .error err →
      ServeHTTP Unmarshal c w req st =
        some { w := w ++ [{ Code := StatusBadRequest,
                            Body := .status { Code := StatusBadRequest, Reason := "BadRequest",
                                              Message := err.Error } }],
               calls := [.GetSchema s], state := st }) := by
  have hlen : ¬ (rest.length + 1 + 1 + 1 < 3 ∨ rest.length + 1 + 1 + 1 > 4) := by omega
  have hnotget : ¬ (("POST" : String) = "GET") := by decide
  constructor
  · intro obj b hextract hread
    obtain ⟨hdata, hver, m, hjson, hname⟩ := extractCustomObject_inv Unmarshal v req.Body obj hextract
    have hb : obj.Data = b := by
      rw [hread] at hdata
      injection hdata with hdata
      exact hdata.symm
    refine ⟨hb, hver, ⟨m, hb ▸ hjson, hname⟩, ?_, ?_⟩
    · intro hset
      simp [ServeHTTP, hpath, hparts, hlen, hschema, hversion, hmethod, hnotget, hextract, hset,
        writeRawJSONData, hb]
    · intro err hset
      simp [ServeHTTP, hpath, hparts, hlen, hschema, hversion, hmethod, hnotget, hextract, hset,
        writeJSON]
  · intro err hextract
    simp [ServeHTTP, hpath, hparts, hlen, hschema, hversion, hmethod, hnotget, hextract,
      writeJSON, errToAPIStatus, NewBadRequest]

/-- The spec's widget, POSTed to `custom/widgets/v1` over the empty store, is
stored by one `Set` under its own name `w1` and echoed with status 200; from
`ServeHTTP_post`. -/
theorem ServeHTTP_post_witness :
    ServeHTTP sampleUnmarshal widgetsHandler [] (NewRequest "POST" "/custom/widgets/v1" widgetJSON)
        []
      = some { w := [{ Code := 200, Body := .raw widgetJSON }],
               calls := [.GetSchema "widgets",
                         .Set "widgets" "w1" { Name := "w1", Version := "v1", Data := widgetJSON }],
               state := widgetStore } :=
  ((ServeHTTP_post sampleUnmarshal widgetsHandler []
      (NewRequest "POST" "/custom/widgets/v1" widgetJSON) [] "custom/widgets/v1" "widgets" "v1" []
      widgetsSchema { Fields := [{ Name := "color", Type' := "string" }] }
      rfl rfl (by decide) (by decide) rfl (by decide)).1
    { Name := "w1", Version := "v1", Data := widgetJSON } widgetJSON rfl rfl).2.2.2.1 rfl

/-- C8, amended: a PUT. On a 4-segment path `custom/<schema>/<version>/<name>` whose
schema and version resolve and whose body `b` extraction accepts as `obj`:
`obj.Data = b`, `obj.Version` is the path version, and the one registry call is
`Set(schema, name, obj)` with the name of the path, whatever `obj.Name` is; over
the etcd-backed registry that call is the store write
`etcd.Set("custom/<schema>/<name>", encoded, 0)` of the encoded object, and
when it succeeds the only response write is status 200 with the body `b`.
On a 3-segment path no `Set` is ever called and the world state is unchanged,
whatever the schema registry answers, and when schema and version resolve the
only write is a BadRequest status. -/
theorem ServeHTTP_put {σ : Type} (Unmarshal : Unmarshaler) (registry : Registry)
    (etcd : EtcdGetSet σ) (codec : Codec) (w : ResponseWriter) (req : Request) (st : σ)
    (path s v : String)
    (hmethod : req.Method = "PUT")
    (hpath : sliceFrom1 req.Path = some path) :
    (∀ (name : String) (S : Schema) (spec : SchemaSpec) (obj : CustomObjectData)
        (b encoded : String),
      Split path '/' = ["custom", s, v, name] →
      registry.GetSchema s = .ok S → findVersion S v = some spec →
      extractCustomObject Unmarshal v req.Body = .ok obj → req.Body.ReadAll = .ok b →
      codec.Encode obj = .ok encoded →
      obj.Data = b ∧ obj.Version = v ∧
      ∃ out, ServeHTTP Unmarshal
          (NewCustomObjectHandler registry (NewEtcdCustomObjectRegistry etcd codec)) w req st
          = some out ∧
        out.calls = [.GetSchema s, .Set s name obj] ∧
        out.state = (etcd.Set ("custom/" ++ s ++ "/" ++ name) encoded 0 st).2 ∧
        ((etcd.Set ("custom/" ++ s ++ "/" ++ name) encoded 0 st).1 = none →
          out.w = w ++ [{ Code := StatusOK, Body := .raw b }])) ∧
    (Split path '/' = ["custom", s, v] →
      ∃ out, ServeHTTP Unmarshal
          (NewCustomObjectHandler registry (NewEtcdCustomObjectRegistry etcd codec)) w req st
          = some out ∧
        out.state = st ∧ (∀ call ∈ out.calls, call = .GetSchema s) ∧
        (∀ (S : Schema) (spec : SchemaSpec),
          registry.GetSchema s = .ok S → findVersion S v = some spec →
          out.w = w ++ [{ Code := StatusBadRequest,
                          Body := .status { Code := StatusBadRequest, Reason := "BadRequest",
                                            Message := "invalid path" } }])) := by
  have hnotget : ¬ (("PUT" : String) = "GET") := by decide
  have hnotpost : ¬ (("PUT" : String) = "POST") := by decide
  have hnotdelete : ¬ (("PUT" : String) = "DELETE") := by decide
  constructor
  · intro name S spec obj b encoded hparts hschema hversion hextract hread hencode
    obtain ⟨hdata, hver, -⟩ := extractCustomObject_inv Unmarshal v req.Body obj hextract
    have hb : obj.Data = b := by
      rw [hread] at hdata
      injection hdata with hdata
      exact hdata.symm
    have hset : ∀ st', (NewEtcdCustomObjectRegistry etcd codec).Set s name obj st' =
        etcd.Set ("custom/" ++ s ++ "/" ++ name) encoded 0 st' := by
      intro st'
      simp [NewEtcdCustomObjectRegistry, etcdObjectRegistry.Set, hencode, makeKey, makeSchemaKey]
    refine ⟨hb, hver, ?_⟩
    cases hres : (etcd.Set ("custom/" ++ s ++ "/" ++ name) encoded 0 st).1 with
    | none =>
      have hserve : ServeHTTP Unmarshal
          (NewCustomObjectHandler registry (NewEtcdCustomObjectRegistry etcd codec)) w req st
          = some { w := w ++ [{ Code := StatusOK, Body := .raw b }],
                   calls := [.GetSchema s, .Set s name obj],
                   state := (etcd.Set ("custom/" ++ s ++ "/" ++ name) encoded 0 st).2 } := by
        simp [ServeHTTP, NewCustomObjectHandler, hpath, hparts, hschema, hversion, hmethod,
          hnotget, hnotpost, hnotdelete, hextract, hset, hres, writeRawJSONData, hb]
      exact ⟨_, hserve, rfl, rfl, fun _ => rfl⟩
    | some err =>
      have hserve : ServeHTTP Unmarshal
          (NewCustomObjectHandler registry (NewEtcdCustomObjectRegistry etcd codec)) w req st
          = some { w := w ++ [{ Code := (errToAPIStatus err).Code,
                                Body := .status (errToAPIStatus err) }],
                   calls := [.GetSchema s, .Set s name obj],
                   state := (etcd.Set ("custom/" ++ s ++ "/" ++ name) encoded 0 st).2 } := by
        simp [ServeHTTP, NewCustomObjectHandler, hpath, hparts, hschema, hversion, hmethod,
          hnotget, hnotpost, hnotdelete, hextract, hset, hres, writeJSON]
      exact ⟨_, hserve, rfl, rfl, fun h => by cases h⟩
  · intro hparts
    cases hschema : registry.GetSchema s with
    | error err =>
      have hserve : ServeHTTP Unmarshal
          (NewCustomObjectHandler registry (NewEtcdCustomObjectRegistry etcd codec)) w req st
          = some { w := writeJSON (errToAPIStatus err).Code (errToAPIStatus err) w,
                   calls := [.GetSchema s], state := st } := by
        simp [ServeHTTP, NewCustomObjectHandler, hpath, hparts, hschema]
      refine ⟨_, hserve, rfl, by simp, ?_⟩
      intro S spec hS
      cases hS
    | ok S =>
      cases hversion : findVersion S v with
      | none =>
        have hserve : ServeHTTP Unmarshal
            (NewCustomObjectHandler registry (NewEtcdCustomObjectRegistry etcd codec)) w req st
            = some { w := notFound w, calls := [.GetSchema s], state := st } := by
          simp [ServeHTTP, NewCustomObjectHandler, hpath, hparts, hschema, hversion]
        refine ⟨_, hserve, rfl, by simp, ?_⟩
        intro S' spec hS hv
        injection hS with hS
        subst hS
        rw [hversion] at hv
        cases hv
      | some spec =>
        have hserve : ServeHTTP Unmarshal
            (NewCustomObjectHandler registry (NewEtcdCustomObjectRegistry etcd codec)) w req st
            = some { w := badRequest w "invalid path", calls := [.GetSchema s], state := st } := by
          simp [ServeHTTP, NewCustomObjectHandler, hpath, hparts, hschema, hversion,
            hmethod, hnotget, hnotpost, hnotdelete]
        refine ⟨_, hserve, rfl, by simp, ?_⟩
        intro S' spec' _ _
        simp [badRequest, writeJSON, errToAPIStatus, NewBadRequest]

/-- The spec's update example: `PUT custom/widgets/v1/w1` with the body
`{"name":"ignored","size":3}` binds the key `custom/widgets/w1` to the encoded
object (version `v1`, the body as data) and echoes the body with status 200;
the same PUT on `custom/widgets/v1` calls no `Set`. From `ServeHTTP_put`. -/
theorem ServeHTTP_put_witness :
    (∃ out, ServeHTTP sampleUnmarshal widgetsHandler []
          (NewRequest "PUT" "/custom/widgets/v1/w1" updateJSON) [] = some out ∧
        out.calls = [.GetSchema "widgets",
          .Set "widgets" "w1" { Name := "ignored", Version := "v1", Data := updateJSON }] ∧
        out.state = [("custom/widgets/w1", "xxxxxxx|xx|ignoredv1" ++ updateJSON)] ∧
        out.w = [{ Code := 200, Body := .raw updateJSON }]) ∧
    (∃ out, ServeHTTP sampleUnmarshal widgetsHandler []
          (NewRequest "PUT" "/custom/widgets/v1" updateJSON) [] = some out ∧
        out.state = [] ∧ (∀ call ∈ out.calls, call = .GetSchema "widgets") ∧
        out.w = [{ Code := 400,
                   Body := .status { Code := 400, Reason := "BadRequest",
                                     Message := "invalid path" } }]) := by
  constructor
  · obtain ⟨hdata, hver, out, hserve, hcalls, hstate, hw⟩ :=
      (ServeHTTP_put sampleUnmarshal widgetsRegistry fakeEtcd lengthCodec []
        (NewRequest "PUT" "/custom/widgets/v1/w1" updateJSON) [] "custom/widgets/v1/w1"
        "widgets" "v1" rfl rfl).1 "w1" widgetsSchema
        { Fields := [{ Name := "color", Type' := "string" }] }
        { Name := "ignored", Version := "v1", Data := updateJSON } updateJSON
        ("xxxxxxx|xx|ignoredv1" ++ updateJSON) (by decide) rfl (by decide) rfl rfl rfl
    exact ⟨out, hserve, hcalls, hstate, hw rfl⟩
  · obtain ⟨out, hserve, hstate, hcalls, hw⟩ :=
      (ServeHTTP_put sampleUnmarshal widgetsRegistry fakeEtcd lengthCodec []
        (NewRequest "PUT" "/custom/widgets/v1" updateJSON) [] "custom/widgets/v1"
        "widgets" "v1" rfl rfl).2 (by decide)
    exact ⟨out, hserve, hstate, hcalls,
      hw widgetsSchema { Fields := [{ Name := "color", Type' := "string" }] } rfl (by decide)⟩

/-- C8 as stated fails in its last clause: a PUT on a 3-segment path is not
always a BadRequest. On `custom/widgets/v3`, a version that the schema does not
have, it is answered with the not-found response (code 404); on the unknown
schema `gadgets` with the registry's not-found status; and while the schema
registry is unreachable with that registry's internal error (code 500): schema
and version are resolved before the length of the path is checked. In each
case nothing is written to the store. -/
theorem ServeHTTP_put_counterexample :
    ServeHTTP sampleUnmarshal widgetsHandler [] (NewRequest "PUT" "/custom/widgets/v3" updateJSON)
        []
      = some { w := [{ Code := 404, Body := .notFound }],
               calls := [.GetSchema "widgets"], state := [] } ∧
    ServeHTTP sampleUnmarshal widgetsHandler [] (NewRequest "PUT" "/custom/gadgets/v1" updateJSON)
        []
      = some { w := [{ Code := 404,
                       Body := .status { Code := 404, Reason := "NotFound",
                                         Message := "schema not found: gadgets" } }],
               calls := [.GetSchema "gadgets"], state := [] } ∧
    ServeHTTP sampleUnmarshal unavailableHandler []
        (NewRequest "PUT" "/custom/widgets/v1" updateJSON) []
      = some { w := [{ Code := 500,
                       Body := .status { Code := 500, Reason := "InternalError",
                                         Message := "Internal error occurred: store unavailable" } }],
               calls := [.GetSchema "widgets"], state := [] } :=
  ⟨rfl, rfl, rfl⟩

/-! ## `ServeHTTP`: reading one object -/

/-- C10: a GET on `custom/<schema>/<version>/<name>` whose schema and version
resolve and whose registry `Get` succeeds with `d`. If `d.Version` differs from
the path version the handler makes two writes, first a BadRequest status (code
400) and then `d.Data` as a raw body with status 200; if `d.Version` is the
path version the only write is `d.Data` with status 200. -/
theorem ServeHTTP_get_version_mismatch {σ : Type} (Unmarshal : Unmarshaler)
    (c : CustomObjectHandler σ) (w : ResponseWriter) (req : Request) (st : σ)
    (path s v name : String) (S : Schema) (spec : SchemaSpec) (d : CustomObjectData)
    (hmethod : req.Method = "GET")
    (hpath : sliceFrom1 req.Path = some path)
    (hparts : Split path '/' = ["custom", s, v, name])
    (hschema : c.registry.GetSchema s = .ok S)
    (hversion : findVersion S v = some spec)
    (hget : (c.customRegistry.Get S.Name name st).1 = .ok d) :
    (d.Version ≠ v →
      ServeHTTP Unmarshal c w req st =
        some { w := w ++ [{ Code := StatusBadRequest,
                            Body := .status { Code := StatusBadRequest, Reason := "BadRequest",
                                              Message := "Storage data version " ++ d.Version ++
                                                " is not the same as requested version: " ++ v } },
                          { Code := StatusOK, Body := .raw d.Data }],
               calls := [.GetSchema s, .Get S.Name name],
               state := (c.customRegistry.Get S.Name name st).2 }) ∧
    (d.Version = v →
      ServeHTTP Unmarshal c w req st =
        some { w := w ++ [{ Code := StatusOK, Body := .raw d.Data }],
               calls := [.GetSchema s, .Get S.Name name],
               state := (c.customRegistry.Get S.Name name st).2 }) := by
  constructor
  · intro hne
    simp [ServeHTTP, hpath, hparts, hschema, hversion, hmethod, hget, hne, writeRawJSONData,
      writeJSON, errToAPIStatus, NewBadRequest]
  · intro heq
    simp [ServeHTTP, hpath, hparts, hschema, hversion, hmethod, hget, heq, writeRawJSONData]

/-- The widget stored under `v1`, read as `custom/widgets/v2/w1`, is answered
with a BadRequest status followed by the raw body, and read as
`custom/widgets/v1/w1` with the raw body alone; from `ServeHTTP_get_version_mismatch`. -/
theorem ServeHTTP_get_version_mismatch_witness :
    ServeHTTP sampleUnmarshal widgetsHandler [] (NewRequest "GET" "/custom/widgets/v2/w1" "")
        widgetStore
      = some { w := [{ Code := 400,
                       Body := .status { Code := 400, Reason := "BadRequest",
                                         Message := "Storage data version v1 is not the same as requested version: v2" } },
                     { Code := 200, Body := .raw widgetJSON }],
               calls := [.GetSchema "widgets", .Get "widgets" "w1"],
               state := widgetStore } ∧
    ServeHTTP sampleUnmarshal widgetsHandler [] (NewRequest "GET" "/custom/widgets/v1/w1" "")
        widgetStore
      = some { w := [{ Code := 200, Body := .raw widgetJSON }],
               calls := [.GetSchema "widgets", .Get "widgets" "w1"],
               state := widgetStore } :=
  ⟨(ServeHTTP_get_version_mismatch sampleUnmarshal widgetsHandler []
      (NewRequest "GET" "/custom/widgets/v2/w1" "") widgetStore "custom/widgets/v2/w1"
      "widgets" "v2" "w1" widgetsSchema { Fields := [{ Name := "size", Type' := "integer" }] }
      { Name := "w1", Version := "v1", Data := widgetJSON }
      rfl rfl (by decide) rfl (by decide) rfl).1 (by decide),
   (ServeHTTP_get_version_mismatch sampleUnmarshal widgetsHandler []
      (NewRequest "GET" "/custom/widgets/v1/w1" "") widgetStore "custom/widgets/v1/w1"
      "widgets" "v1" "w1" widgetsSchema { Fields := [{ Name := "color", Type' := "string" }] }
      { Name := "w1", Version := "v1", Data := widgetJSON }
      rfl rfl (by decide) rfl (by decide) rfl).2 rfl⟩

/-! ## Round trip: POST, then GET by the embedded name -/

theorem splitChars_of_not_mem (sep : Char) :
    ∀ (l : List Char), sep ∉ l → splitChars sep l = [l] := by
  intro l
  induction l with
  | nil => intro _; rfl
  | cons c cs ih =>
    intro hmem
    have hc : c ≠ sep := fun h => hmem (h ▸ List.mem_cons_self c cs)
    have hcs : sep ∉ cs := fun h => hmem (List.mem_cons_of_mem c h)
    simp [splitChars, hc, ih hcs]

theorem splitChars_append_sep (sep : Char) (b : List Char) :
    ∀ (a : List Char), sep ∉ a → splitChars sep (a ++ sep :: b) = a :: splitChars sep b := by
  intro a
  induction a with
  | nil => intro _; simp [splitChars]
  | cons c cs ih =>
    intro hmem
    have hc : c ≠ sep := fun h => hmem (h ▸ List.mem_cons_self c cs)
    have hcs : sep ∉ cs := fun h => hmem (List.mem_cons_of_mem c h)
    simp [splitChars, hc, ih hcs]

theorem not_mem_of_mem_splitChars (sep : Char) :
    ∀ (l seg : List Char), seg ∈ splitChars sep l → sep ∉ seg := by
  intro l
  induction l with
  | nil =>
    intro seg hseg
    simp [splitChars] at hseg
    simp [hseg]
  | cons c cs ih =>
    intro seg hseg
    by_cases hc : c = sep
    · simp only [splitChars, hc, if_true, List.mem_cons] at hseg
      rcases hseg with h | h
      · simp [h]
      · exact ih seg h
    · cases hrec : splitChars sep cs with
      | nil => exact absurd hrec (splitChars_ne_nil sep cs)
      | cons seg0 segs =>
        simp only [splitChars, hc, if_false, hrec, List.mem_cons] at hseg
        have hseg0 : sep ∉ seg0 := ih seg0 (by simp [hrec])
        rcases hseg with h | h
        · subst h
          intro hin
          rcases List.mem_cons.mp hin with h' | h'
          · exact hc h'.symm
          · exact hseg0 h'
        · exact ih seg (by simp [hrec, h])

theorem not_mem_of_mem_Split (sep : Char) (s seg : String) (h : seg ∈ Split s sep) :
    sep ∉ seg.data := by
  simp only [Split, List.mem_map] at h
  obtain ⟨chars, hchars, hmk⟩ := h
  subst hmk
  exact not_mem_of_mem_splitChars sep s.data chars hchars

theorem sliceFrom1_slash (t : String) : sliceFrom1 ("/" ++ t) = some t := by
  have h : ("/" ++ t).data = '/' :: t.data := by
    rw [String.data_append]
    rfl
  simp [sliceFrom1, h]

theorem Split_object_path (s v n : String)
    (hs : '/' ∉ s.data) (hv : '/' ∉ v.data) (hn : '/' ∉ n.data) :
    Split ("custom/" ++ s ++ "/" ++ v ++ "/" ++ n) '/' = ["custom", s, v, n] := by
  have hdata : ("custom/" ++ s ++ "/" ++ v ++ "/" ++ n).data =
      "custom".data ++ '/' :: (s.data ++ '/' :: (v.data ++ '/' :: n.data)) := by
    simp [String.data_append]
  have hcustom : '/' ∉ "custom".data := by decide
  simp only [Split, hdata]
  rw [splitChars_append_sep '/' _ _ hcustom, splitChars_append_sep '/' _ _ hs,
    splitChars_append_sep '/' _ _ hv, splitChars_of_not_mem '/' _ hn]
  rfl

theorem readLength_replicate (r : List Char) :
    ∀ (n : Nat), readLength (List.replicate n 'x' ++ '|' :: r) = some (n, r) := by
  intro n
  induction n with
  | zero => simp [readLength]
  | succ k ih =>
    have hx : ¬ ('x' = '|') := by decide
    simp [List.replicate_succ, readLength, hx, ih]

theorem lengthCodec_roundtrip (d : CustomObjectData) (encoded : String)
    (h : lengthCodec.Encode d = .ok encoded) : lengthCodec.DecodeInto encoded = .ok d := by
  simp only [lengthCodec] at h
  injection h with h
  subst h
  simp only [lengthCodec, readLength_replicate, List.take_left, List.drop_left]

theorem fakeEtcd_get_set (key value : String) (ttl : Nat) (st : FakeStore) :
    (fakeEtcd.Set key value ttl st).1 = none ∧
    (fakeEtcd.Get key false false (fakeEtcd.Set key value ttl st).2).1 = .ok (.mk value []) := by
  simp [fakeEtcd, List.lookup]

theorem ServeHTTP_post_accepted {σ : Type} (Unmarshal : Unmarshaler)
    (c : CustomObjectHandler σ) (w : ResponseWriter) (req : Request) (st : σ)
    (path s v b : String) (out : Outcome σ)
    (hmethod : req.Method = "POST")
    (hpath : sliceFrom1 req.Path = some path)
    (hparts : Split path '/' = ["custom", s, v])
    (hserve : ServeHTTP Unmarshal c w req st = some out)
    (haccept : out.w = w ++ [{ Code := StatusOK, Body := .raw b }]) :
    ∃ S spec obj, c.registry.GetSchema s = .ok S ∧ findVersion S v = some spec ∧
      extractCustomObject Unmarshal v req.Body = .ok obj ∧ obj.Data = b ∧
      (c.customRegistry.Set S.Name obj.Name obj st).1 = none ∧
      out.state = (c.customRegistry.Set S.Name obj.Name obj st).2 := by
  have hnotget : ¬ (("POST" : String) = "GET") := by decide
  cases hschema : c.registry.GetSchema s with
  | error err =>
    simp [ServeHTTP, hpath, hparts, hschema] at hserve
    subst hserve
    simp [writeJSON] at haccept
  | ok S =>
    cases hversion : findVersion S v with
    | none =>
      simp [ServeHTTP, hpath, hparts, hschema, hversion] at hserve
      subst hserve
      simp [notFound] at haccept
    | some spec =>
      cases hextract : extractCustomObject Unmarshal v req.Body with
      | error err =>
        simp [ServeHTTP, hpath, hparts, hschema, hversion, hmethod, hnotget, hextract] at hserve
        subst hserve
        simp [writeJSON] at haccept
      | ok obj =>
        cases hset : (c.customRegistry.Set S.Name obj.Name obj st).1 with
        | some err =>
          simp [ServeHTTP, hpath, hparts, hschema, hversion, hmethod, hnotget, hextract, hset]
            at hserve
          subst hserve
          simp [writeJSON] at haccept
        | none =>
          simp [ServeHTTP, hpath, hparts, hschema, hversion, hmethod, hnotget, hextract, hset]
            at hserve
          subst hserve
          simp [writeRawJSONData] at haccept
          exact ⟨S, spec, obj, rfl, hversion, rfl, haccept, hset, rfl⟩

/-- C9, amended: over an etcd store in which a `Get` of a key returns the value
of the successful `Set` just made on it, and a codec whose `DecodeInto` undoes
`Encode`: if a POST to `custom/<schema>/<version>` is accepted (its response is
status 200 with the body `b`) and the name `n` embedded in the body holds no
"/", then a GET of `custom/<schema>/<version>/<n>` in the resulting state
writes exactly status 200 with the body `b`. -/
theorem ServeHTTP_post_get_roundtrip {σ : Type} (Unmarshal : Unmarshaler) (registry : Registry)
    (etcd : EtcdGetSet σ) (codec : Codec) (w w' : ResponseWriter) (post get : Request) (st : σ)
    (path s v b n : String) (obj : CustomObjectData) (out : Outcome σ)
    (hstore : ∀ key value ttl st0, (etcd.Set key value ttl st0).1 = none →
      ∃ node, (etcd.Get key false false (etcd.Set key value ttl st0).2).1 = .ok node ∧
        node.Value = value)
    (hcodec : ∀ d encoded, codec.Encode d = .ok encoded → codec.DecodeInto encoded = .ok d)
    (hpost : post.Method = "POST")
    (hpath : sliceFrom1 post.Path = some path)
    (hparts : Split path '/' = ["custom", s, v])
    (hextract : extractCustomObject Unmarshal v post.Body = .ok obj)
    (hname : obj.Name = n)
    (hserve : ServeHTTP Unmarshal
      (NewCustomObjectHandler registry (NewEtcdCustomObjectRegistry etcd codec)) w post st
      = some out)
    (haccept : out.w = w ++ [{ Code := StatusOK, Body := .raw b }])
    (hslash : '/' ∉ n.data)
    (hget : get.Method = "GET")
    (hgetpath : get.Path = "/custom/" ++ s ++ "/" ++ v ++ "/" ++ n) :
    ∃ out', ServeHTTP Unmarshal
        (NewCustomObjectHandler registry (NewEtcdCustomObjectRegistry etcd codec)) w' get out.state
        = some out' ∧
      out'.w = w' ++ [{ Code := StatusOK, Body := .raw b }] := by
  obtain ⟨S, spec, obj', hschema, hversion, hextract', hdata, hset, hstate⟩ :=
    ServeHTTP_post_accepted Unmarshal _ w post st path s v b out hpost hpath hparts hserve haccept
  have hobj : obj' = obj := by
    rw [hextract] at hextract'
    injection hextract' with h
    exact h.symm
  subst hobj
  subst hname
  have hver : obj'.Version = v := (extractCustomObject_inv Unmarshal v post.Body obj' hextract).2.1
  -- the accepted `Set` is an etcd `Set` of the encoded object
  simp only [NewCustomObjectHandler, NewEtcdCustomObjectRegistry, etcdObjectRegistry.Set]
    at hset hstate hschema
  cases hencode : codec.Encode obj' with
  | error err => simp [hencode] at hset
  | ok encoded =>
    simp only [hencode] at hset hstate
    obtain ⟨node, hnode, hvalue⟩ := hstore _ _ _ _ hset
    have hdecode : codec.DecodeInto node.Value = .ok obj' := by
      rw [hvalue]
      exact hcodec obj' encoded hencode
    -- the path of the GET
    have hs : '/' ∉ s.data := not_mem_of_mem_Split '/' path s (by simp [hparts])
    have hv : '/' ∉ v.data := not_mem_of_mem_Split '/' path v (by simp [hparts])
    have hlit : ("/custom/" : String) = "/" ++ "custom/" := by decide
    have hslice : sliceFrom1 get.Path = some ("custom/" ++ s ++ "/" ++ v ++ "/" ++ obj'.Name) := by
      rw [hgetpath, hlit, ← sliceFrom1_slash ("custom/" ++ s ++ "/" ++ v ++ "/" ++ obj'.Name)]
      simp only [String.append_assoc]
    have hsplit := Split_object_path s v obj'.Name hs hv hslash
    have hread : ((NewEtcdCustomObjectRegistry etcd codec).Get S.Name obj'.Name out.state).1
        = .ok obj' := by
      simp only [NewEtcdCustomObjectRegistry, etcdObjectRegistry.Get, hstate, hnode, hdecode]
    refine ⟨{ w := w' ++ [{ Code := StatusOK, Body := .raw b }],
              calls := [.GetSchema s, .Get S.Name obj'.Name],
              state := ((NewEtcdCustomObjectRegistry etcd codec).Get S.Name obj'.Name
                out.state).2 }, ?_, rfl⟩
    simp [ServeHTTP, NewCustomObjectHandler, hslice, hsplit, hschema, hversion, hget, hread,
      hver, writeRawJSONData, hdata]

/-- The widget POSTed to `custom/widgets/v1` is read back byte for byte by
`GET custom/widgets/v1/w1`; from `ServeHTTP_post_get_roundtrip`. -/
theorem ServeHTTP_post_get_roundtrip_witness :
    ∃ out', ServeHTTP sampleUnmarshal widgetsHandler [] (NewRequest "GET" "/custom/widgets/v1/w1" "")
        widgetStore = some out' ∧
      out'.w = [{ Code := 200, Body := .raw widgetJSON }] :=
  ServeHTTP_post_get_roundtrip sampleUnmarshal widgetsRegistry fakeEtcd lengthCodec [] []
    (NewRequest "POST" "/custom/widgets/v1" widgetJSON) (NewRequest "GET" "/custom/widgets/v1/w1" "")
    [] "custom/widgets/v1" "widgets" "v1" widgetJSON "w1"
    { Name := "w1", Version := "v1", Data := widgetJSON }
    { w := [{ Code := 200, Body := .raw widgetJSON }],
      calls := [.GetSchema "widgets",
                .Set "widgets" "w1" { Name := "w1", Version := "v1", Data := widgetJSON }],
      state := widgetStore }
    (fun key value ttl st0 _ => ⟨.mk value [], (fakeEtcd_get_set key value ttl st0).2, rfl⟩)
    lengthCodec_roundtrip rfl rfl (by decide) rfl rfl rfl rfl (by decide) rfl rfl

/-- C9 as stated fails: over the in-memory store (whose `Get` returns what was
`Set`) and the length codec (whose decode undoes encode), the POST of
`{"name":"a/b"}` to `custom/widgets/v1` is accepted with embedded name `a/b`
and echoed with status 200, and the following GET of `custom/widgets/v1/a/b`
is answered with a BadRequest status only: its path has five segments. -/
theorem ServeHTTP_post_get_roundtrip_counterexample :
    (∀ key value ttl st0, (fakeEtcd.Set key value ttl st0).1 = none →
      ∃ node, (fakeEtcd.Get key false false (fakeEtcd.Set key value ttl st0).2).1 = .ok node ∧
        node.Value = value) ∧
    (∀ d encoded, lengthCodec.Encode d = .ok encoded → lengthCodec.DecodeInto encoded = .ok d) ∧
    extractCustomObject sampleUnmarshal "v1" (newFakeReadCloser slashJSON)
      = .ok { Name := "a/b", Version := "v1", Data := slashJSON } ∧
    ServeHTTP sampleUnmarshal widgetsHandler [] (NewRequest "POST" "/custom/widgets/v1" slashJSON) []
      = some { w := [{ Code := 200, Body := .raw slashJSON }],
               calls := [.GetSchema "widgets",
                         .Set "widgets" "a/b" { Name := "a/b", Version := "v1", Data := slashJSON }],
               state := slashStore } ∧
    ServeHTTP sampleUnmarshal widgetsHandler [] (NewRequest "GET" "/custom/widgets/v1/a/b" "")
        slashStore
      = some { w := [{ Code := 400,
                       Body := .status { Code := 400, Reason := "BadRequest",
                                         Message := "Invalid path, expected /custom/<schema>/<version> or /custom/<schema>/<version>/<name>" } }],
               calls := [], state := slashStore } :=
  ⟨fun key value ttl st0 _ => ⟨.mk value [], (fakeEtcd_get_set key value ttl st0).2, rfl⟩,
   lengthCodec_roundtrip, rfl, rfl, rfl⟩

/-! ## `ServeHTTP`: the version of listed objects -/

/-- C11: the list branch does not compare the stored version with the path
version. Over the store that holds the widget `w1` under version `v1`,
`GET custom/widgets/v2` writes status 200 with the widget's `Data` among the
items and reports no error, while the single-object branch, on
`GET custom/widgets/v2/w1`, does report the version mismatch. -/
theorem ServeHTTP_list_version_unchecked :
    (widgetsHandler.customRegistry.List "widgets" widgetStore).1
      = .ok [{ Name := "w1", Version := "v1", Data := widgetJSON }] ∧
    ServeHTTP sampleUnmarshal widgetsHandler [] (NewRequest "GET" "/custom/widgets/v2" "")
        widgetStore
      = some { w := [{ Code := 200,
                       Body := .raw "\x7b\"items\": [\x7b\"name\":\"w1\",\"color\":\"red\"\x7d]\x7d" }],
               calls := [.GetSchema "widgets", .List "widgets"],
               state := widgetStore } ∧
    ServeHTTP sampleUnmarshal widgetsHandler [] (NewRequest "GET" "/custom/widgets/v2/w1" "")
        widgetStore
      = some { w := [{ Code := 400,
                       Body := .status { Code := 400, Reason := "BadRequest",
                                         Message := "Storage data version v1 is not the same as requested version: v2" } },
                     { Code := 200, Body := .raw widgetJSON }],
               calls := [.GetSchema "widgets", .Get "widgets" "w1"],
               state := widgetStore } :=
  ⟨rfl, rfl, rfl⟩

/-! ## `ServeHTTP`: unsupported methods -/

/-- C12, amended: a request whose method is none of GET, POST, PUT, DELETE
makes no call on the custom object registry (its only interface call, if any,
is `GetSchema`) and leaves the world state alone; and when its path is
malformed, or its path is well formed and schema and version resolve, the one
write is a BadRequest status (code 400). -/
theorem ServeHTTP_unsupported_method {σ : Type} (Unmarshal : Unmarshaler)
    (c : CustomObjectHandler σ) (w : ResponseWriter) (req : Request) (st : σ) (path : String)
    (hmethod : req.Method ≠ "GET" ∧ req.Method ≠ "POST" ∧ req.Method ≠ "PUT" ∧
      req.Method ≠ "DELETE")
    (hpath : sliceFrom1 req.Path = some path) :
    ∃ out, ServeHTTP Unmarshal c w req st = some out ∧ out.state = st ∧
      (∀ call ∈ out.calls, call = .GetSchema ((Split path '/').getD 1 "")) ∧
      (((Split path '/').length < 3 ∨ (Split path '/').length > 4 ∨
          (Split path '/').head? ≠ some "custom") ∨
        (∃ S spec, c.registry.GetSchema ((Split path '/').getD 1 "") = .ok S ∧
          findVersion S ((Split path '/').getD 2 "") = some spec) →
        ∃ reason, out.w = w ++ [{ Code := StatusBadRequest,
                                  Body := .status { Code := StatusBadRequest,
                                                    Reason := "BadRequest",
                                                    Message := reason } }]) := by
  obtain ⟨hget, hpost, hput, hdelete⟩ := hmethod
  by_cases hlen : (Split path '/').length < 3 ∨ (Split path '/').length > 4
  · have hserve : ServeHTTP Unmarshal c w req st =
        some { w := badRequest w "Invalid path, expected /custom/<schema>/<version> or /custom/<schema>/<version>/<name>",
               calls := [], state := st } := by
      simp [ServeHTTP, hpath, hlen]
    refine ⟨_, hserve, rfl, by simp, ?_⟩
    intro _
    exact ⟨_, rfl⟩
  · by_cases hfirst : (Split path '/')[0]?.getD "" = "custom"
    · have hhead : ¬ ((Split path '/').head? ≠ some "custom") := by
        cases hsplit : Split path '/' with
        | nil => exact absurd hsplit (Split_ne_nil path '/')
        | cons a rest =>
          rw [hsplit] at hfirst
          simpa using hfirst
      have hmalformed : ¬ ((Split path '/').length < 3 ∨ (Split path '/').length > 4 ∨
          (Split path '/').head? ≠ some "custom") := by
        intro h
        rcases h with h | h | h
        · exact hlen (Or.inl h)
        · exact hlen (Or.inr h)
        · exact hhead h
      cases hschema : c.registry.GetSchema ((Split path '/')[1]?.getD "") with
      | error err =>
        have hserve : ServeHTTP Unmarshal c w req st =
            some { w := writeJSON (errToAPIStatus err).Code (errToAPIStatus err) w,
                   calls := [.GetSchema ((Split path '/').getD 1 "")], state := st } := by
          simp [ServeHTTP, hpath, hlen, hfirst, hschema]
        refine ⟨_, hserve, rfl, by simp, ?_⟩
        intro h
        rcases h with h | ⟨S, spec, hS, _⟩
        · exact absurd h hmalformed
        · simp [hschema] at hS
      | ok S =>
        cases hversion : findVersion S ((Split path '/')[2]?.getD "") with
        | none =>
          have hserve : ServeHTTP Unmarshal c w req st =
              some { w := notFound w, calls := [.GetSchema ((Split path '/').getD 1 "")],
                     state := st } := by
            simp [ServeHTTP, hpath, hlen, hfirst, hschema, hversion]
          refine ⟨_, hserve, rfl, by simp, ?_⟩
          intro h
          rcases h with h | ⟨S', spec, hS, hv⟩
          · exact absurd h hmalformed
          · simp [hschema] at hS
            subst hS
            simp [hversion] at hv
        | some spec =>
          have hserve : ServeHTTP Unmarshal c w req st =
              some { w := badRequest w ("unsupported method: " ++ req.Method),
                     calls := [.GetSchema ((Split path '/').getD 1 "")], state := st } := by
            simp [ServeHTTP, hpath, hlen, hfirst, hschema, hversion, hget, hpost, hput, hdelete]
          refine ⟨_, hserve, rfl, by simp, ?_⟩
          intro _
          exact ⟨_, rfl⟩
    · have hserve : ServeHTTP Unmarshal c w req st =
          some { w := badRequest w ("Invalid prefix: " ++ (Split path '/').getD 0 ""),
                 calls := [], state := st } := by
        simp [ServeHTTP, hpath, hlen, hfirst]
      refine ⟨_, hserve, rfl, by simp, ?_⟩
      intro _
      exact ⟨_, rfl⟩

/-- A PATCH on `custom/widgets/v1` makes no call but `GetSchema` and is
answered with a BadRequest status; from `ServeHTTP_unsupported_method`. -/
theorem ServeHTTP_unsupported_method_witness :
    ∃ out, ServeHTTP sampleUnmarshal widgetsHandler [] (NewRequest "PATCH" "/custom/widgets/v1" "")
        [] = some out ∧ out.state = [] ∧
      (∀ call ∈ out.calls, call = .GetSchema "widgets") ∧
      ∃ reason, out.w = [{ Code := 400,
                           Body := .status { Code := 400, Reason := "BadRequest",
                                             Message := reason } }] := by
  obtain ⟨out, hserve, hstate, hcalls, hw⟩ :=
    ServeHTTP_unsupported_method sampleUnmarshal widgetsHandler []
      (NewRequest "PATCH" "/custom/widgets/v1" "") [] "custom/widgets/v1"
      ⟨by decide, by decide, by decide, by decide⟩ rfl
  exact ⟨out, hserve, hstate, hcalls,
    hw (Or.inr ⟨widgetsSchema, { Fields := [{ Name := "color", Type' := "string" }] }, rfl,
      by decide⟩)⟩

/-- C12 as stated fails: a PATCH on `custom/widgets/v3`, a version that the
schema does not have, is answered with the not-found response (code 404); a
PATCH on the unknown schema `gadgets` with the registry's not-found status;
and a PATCH while the schema registry is unreachable with that registry's
internal error (code 500). None is a BadRequest status. -/
theorem ServeHTTP_unsupported_method_counterexample :
    ServeHTTP sampleUnmarshal widgetsHandler [] (NewRequest "PATCH" "/custom/widgets/v3" "") []
      = some { w := [{ Code := 404, Body := .notFound }],
               calls := [.GetSchema "widgets"], state := [] } ∧
    ServeHTTP sampleUnmarshal widgetsHandler [] (NewRequest "PATCH" "/custom/gadgets/v1" "") []
      = some { w := [{ Code := 404,
                       Body := .status { Code := 404, Reason := "NotFound",
                                         Message := "schema not found: gadgets" } }],
               calls := [.GetSchema "gadgets"], state := [] } ∧
    ServeHTTP sampleUnmarshal unavailableHandler [] (NewRequest "PATCH" "/custom/widgets/v1" "") []
      = some { w := [{ Code := 500,
                       Body := .status { Code := 500, Reason := "InternalError",
                                         Message := "Internal error occurred: store unavailable" } }],
               calls := [.GetSchema "widgets"], state := [] } :=
  ⟨rfl, rfl, rfl⟩

/-! ## The key scheme -/

theorem append_sep_inj (sep : Char) (x y : List Char) :
    ∀ (a b : List Char), sep ∉ a → sep ∉ b → a ++ sep :: x = b ++ sep :: y → a = b := by
  intro a
  induction a with
  | nil =>
    intro b _ hb h
    cases b with
    | nil => rfl
    | cons d b' =>
      simp only [List.nil_append, List.cons_append, List.cons.injEq] at h
      exact absurd (h.1 ▸ List.mem_cons_self d b') hb
  | cons c a' ih =>
    intro b ha hb h
    cases b with
    | nil =>
      simp only [List.nil_append, List.cons_append, List.cons.injEq] at h
      exact absurd (h.1 ▸ List.mem_cons_self c a') ha
    | cons d b' =>
      simp only [List.cons_append, List.cons.injEq] at h
      have ha' : sep ∉ a' := fun hmem => ha (List.mem_cons_of_mem c hmem)
      have hb' : sep ∉ b' := fun hmem => hb (List.mem_cons_of_mem d hmem)
      rw [h.1, ih b' ha' hb' h.2]

theorem makeKey_data (s n : String) :
    (makeKey s n).data = "custom/".data ++ (s.data ++ '/' :: n.data) := by
  simp [makeKey, makeSchemaKey, String.data_append]

/-- C13, amended: `makeKey(s, n)` is the string `"custom/" ++ s ++ "/" ++ n`,
and two different schema names that contain no "/" never address the same
store key, whatever the object names are. -/
theorem makeKey_no_cross_schema_collision (s1 s2 n1 n2 : String)
    (h1 : '/' ∉ s1.data) (h2 : '/' ∉ s2.data) (hne : s1 ≠ s2) :
    makeKey s1 n1 = "custom/" ++ s1 ++ "/" ++ n1 ∧ makeKey s1 n1 ≠ makeKey s2 n2 := by
  refine ⟨rfl, ?_⟩
  intro hkey
  have hdata := congrArg String.data hkey
  rw [makeKey_data, makeKey_data] at hdata
  have hrest := List.append_cancel_left hdata
  have hs : s1.data = s2.data := append_sep_inj '/' n1.data n2.data s1.data s2.data h1 h2 hrest
  exact hne (String.ext hs)

/-- The keys of an object named `w1` under the schemas `widgets` and `gadgets`
differ; from `makeKey_no_cross_schema_collision`. -/
theorem makeKey_no_cross_schema_collision_witness :
    makeKey "widgets" "w1" = "custom/" ++ "widgets" ++ "/" ++ "w1" ∧
      makeKey "widgets" "w1" ≠ makeKey "gadgets" "w1" :=
  makeKey_no_cross_schema_collision "widgets" "gadgets" "w1" "w1" (by decide) (by decide)
    (by decide)

/-- C13 as stated fails: the schema names `a` and `a/b` differ, and the object
`b/c` of the first and the object `c` of the second share the key
`custom/a/b/c`. -/
theorem makeKey_no_cross_schema_collision_counterexample :
    ("a" : String) ≠ "a/b" ∧ makeKey "a" "b/c" = makeKey "a/b" "c" ∧
      makeKey "a" "b/c" = "custom/a/b/c" := by
  decide

end CustomObjects

/-! ## REST mapping helpers -/

namespace Kubectl

open CustomObjects (GoError)

/-- C17: `expandResourceShortcut` maps each of its 15 abbreviations to the
canonical resource name and returns every other string unchanged;
`ShortcutExpander.KindFor` and `ResourceIsValid` return what the wrapped mapper
returns on the expanded resource. -/
theorem expandResourceShortcut_table (e : ShortcutExpander) (resource : String) :
    (expandResourceShortcut "cs" = "componentstatuses" ∧
      expandResourceShortcut "ds" = "daemonsets" ∧
      expandResourceShortcut "ep" = "endpoints" ∧
      expandResourceShortcut "ev" = "events" ∧
      expandResourceShortcut "hpa" = "horizontalpodautoscalers" ∧
      expandResourceShortcut "ing" = "ingresses" ∧
      expandResourceShortcut "limits" = "limitranges" ∧
      expandResourceShortcut "no" = "nodes" ∧
      expandResourceShortcut "ns" = "namespaces" ∧
      expandResourceShortcut "po" = "pods" ∧
      expandResourceShortcut "pvc" = "persistentvolumeclaims" ∧
      expandResourceShortcut "pv" = "persistentvolumes" ∧
      expandResourceShortcut "quota" = "resourcequotas" ∧
      expandResourceShortcut "rc" = "replicationcontrollers" ∧
      expandResourceShortcut "svc" = "services") ∧
    (resource ∉ ["cs", "ds", "ep", "ev", "hpa", "ing", "limits", "no", "ns", "po", "pvc", "pv",
        "quota", "rc", "svc"] → expandResourceShortcut resource = resource) ∧
    e.KindFor resource = e.RESTMapper.KindFor (expandResourceShortcut resource) ∧
    e.ResourceIsValid resource = e.RESTMapper.ResourceIsValid (expandResourceShortcut resource) := by
  refine ⟨by decide, ?_, rfl, rfl⟩
  intro hnot
  simp only [List.mem_cons, List.mem_singleton, List.not_mem_nil, or_false, not_or] at hnot
  obtain ⟨h1, h2, h3, h4, h5, h6, h7, h8, h9, h10, h11, h12, h13, h14, h15⟩ := hnot
  have hb : ∀ k : String, ¬ resource = k → (resource == k) = false := by
    intro k hk
    simpa using hk
  simp only [expandResourceShortcut, shortForms, List.lookup, hb _ h1, hb _ h2, hb _ h3, hb _ h4,
    hb _ h5, hb _ h6, hb _ h7, hb _ h8, hb _ h9, hb _ h10, hb _ h11, hb _ h12, hb _ h13,
    hb _ h14, hb _ h15]

/-- Over the sample mapper, `po` is looked up as `pods` and `deployments`, no
abbreviation, as itself; from `expandResourceShortcut_table`. -/
theorem expandResourceShortcut_table_witness :
    ShortcutExpander.KindFor { RESTMapper := sampleMapper } "po"
      = .ok { Group := "", Version := "v1", Kind := "Pod" } ∧
    expandResourceShortcut "deployments" = "deployments" :=
  ⟨(expandResourceShortcut_table { RESTMapper := sampleMapper } "po").2.2.1,
   (expandResourceShortcut_table { RESTMapper := sampleMapper } "deployments").2.1 (by decide)⟩

theorem preferred_skip (m : RESTMapper) (gk : GroupKind) (pre rest : List GroupVersion)
    (hpre : ∀ x ∈ pre, x.Group ≠ gk.Group) :
    OutputVersionMapper.preferred m gk (pre ++ rest) = OutputVersionMapper.preferred m gk rest := by
  induction pre with
  | nil => rfl
  | cons x xs ih =>
    have hx : ¬ (gk.Group = x.Group) := fun h => hpre x (List.mem_cons_self x xs) h.symm
    have hxs : ∀ y ∈ xs, y.Group ≠ gk.Group := fun y hy => hpre y (List.mem_cons_of_mem x hy)
    simp [OutputVersionMapper.preferred, hx, ih hxs]

/-- C18: let `pv` be the first entry of `OutputVersions` whose `Group` is
`gk.Group`. If the wrapped mapper's `RESTMapping(gk, pv.Version)` succeeds,
`OutputVersionMapper.RESTMapping(gk, vs)` returns that mapping; if it fails, the
result is the wrapped mapper's `RESTMapping(gk, vs)`, whatever the later
entries are. When no entry has the group of `gk`, the result is the wrapped
mapper's `RESTMapping(gk, vs)`. -/
theorem OutputVersionMapper_RESTMapping_preferred (inner : RESTMapper) (gk : GroupKind)
    (vs : List String) :
    (∀ (pre post : List GroupVersion) (pv : GroupVersion),
      (∀ x ∈ pre, x.Group ≠ gk.Group) → pv.Group = gk.Group →
      (∀ mapping, inner.RESTMapping gk [pv.Version] = .ok mapping →
        OutputVersionMapper.RESTMapping
          { RESTMapper := inner, OutputVersions := pre ++ pv :: post } gk vs = .ok mapping) ∧
      (∀ err, inner.RESTMapping gk [pv.Version] = .error err →
        OutputVersionMapper.RESTMapping
          { RESTMapper := inner, OutputVersions := pre ++ pv :: post } gk vs
          = inner.RESTMapping gk vs)) ∧
    (∀ (outputVersions : List GroupVersion),
      (∀ x ∈ outputVersions, x.Group ≠ gk.Group) →
      OutputVersionMapper.RESTMapping
        { RESTMapper := inner, OutputVersions := outputVersions } gk vs
        = inner.RESTMapping gk vs) := by
  constructor
  · intro pre post pv hpre hpv
    constructor
    · intro mapping hok
      simp [OutputVersionMapper.RESTMapping, preferred_skip inner gk pre (pv :: post) hpre,
        OutputVersionMapper.preferred, hpv, hok]
    · intro err herr
      simp [OutputVersionMapper.RESTMapping, preferred_skip inner gk pre (pv :: post) hpre,
        OutputVersionMapper.preferred, hpv, herr]
  · intro outputVersions hnone
    have h := preferred_skip inner gk outputVersions [] hnone
    rw [List.append_nil] at h
    simp [OutputVersionMapper.RESTMapping, h, OutputVersionMapper.preferred]

/-- Over the sample mapper with the preferred versions `apps/v2`,
`extensions/v1`, `extensions/v1beta1`: a `Job` of `extensions` asked for in
`v1beta1` is mapped in the preferred `v1`; from `OutputVersionMapper_RESTMapping_preferred`. -/
theorem OutputVersionMapper_RESTMapping_preferred_witness :
    OutputVersionMapper.RESTMapping
      { RESTMapper := sampleMapper,
        OutputVersions := [{ Group := "apps", Version := "v2" },
                           { Group := "extensions", Version := "v1" },
                           { Group := "extensions", Version := "v1beta1" }] }
      { Group := "extensions", Kind := "Job" } ["v1beta1"]
      = .ok { Resource := "jobs",
              GroupVersionKind := { Group := "extensions", Version := "v1", Kind := "Job" } } :=
  ((OutputVersionMapper_RESTMapping_preferred sampleMapper { Group := "extensions", Kind := "Job" }
      ["v1beta1"]).1 [{ Group := "apps", Version := "v2" }]
      [{ Group := "extensions", Version := "v1beta1" }] { Group := "extensions", Version := "v1" }
      (by decide) rfl).1 _ rfl

end Kubectl

/-! ## Schema registry -/

namespace SchemaRegistry

open CustomObjects (GoError Schema)

/-- C19: when the storage call returns the error `e` and no object,
`ListSchemas`, `GetSchema` and `DeleteSchema` return `e` to their caller, while
`CreateSchema` and `UpdateSchema` panic on the type assertion of the absent
object and return nothing. -/
theorem registry_error_propagation (s : StandardStorage) (e : GoError) (name : String)
    (schema : Schema) :
    (s.List = (none, some e) → ListSchemas s = some (none, some e)) ∧
    (s.Get name = (none, some e) → GetSchema s name = some (none, some e)) ∧
    (s.Delete name = (none, some e) → DeleteSchema s name = some (some e)) ∧
    (s.Create schema = (none, some e) → CreateSchema s schema = none) ∧
    (s.Update schema = (none, some e) → UpdateSchema s schema = none) := by
  refine ⟨?_, ?_, ?_, ?_, ?_⟩ <;> intro h
  · simp [ListSchemas, h]
  · simp [GetSchema, h]
  · simp [DeleteSchema, h]
  · simp [CreateSchema, h, assertSchema]
  · simp [UpdateSchema, h, assertSchema]

end SchemaRegistry

/-! ## Third-party controller -/

namespace Master

open CustomObjects (GoError)

theorem SyncOneResource_calls {σ : Type} (t : ThirdPartyController σ) (rsrc : ThirdPartyResource)
    (st : σ) :
    ∀ call ∈ (SyncOneResource t rsrc st).calls,
      call = .HasAPI rsrc ∨ call = .InstallThirdPartyAPI rsrc := by
  intro call hcall
  cases hhas : (t.master.HasAPI rsrc st).1 with
  | error err =>
    simp [SyncOneResource, hhas] at hcall
    exact Or.inl hcall
  | ok hasAPI =>
    cases hasAPI with
    | false =>
      simp [SyncOneResource, hhas] at hcall
      exact hcall
    | true =>
      simp [SyncOneResource, hhas] at hcall
      exact Or.inl hcall

theorem syncItems_calls {σ : Type} (t : ThirdPartyController σ) (deps : Deps) :
    ∀ (items : List ThirdPartyResource) (existing : StringSet) (st : σ),
      ∀ call ∈ (syncItems t deps items existing st).calls,
        ∃ r ∈ items, call = .HasAPI r ∨ call = .InstallThirdPartyAPI r := by
  intro items
  induction items with
  | nil => intro existing st call hcall; simp [syncItems] at hcall
  | cons item rest ih =>
    intro existing st call hcall
    cases hextract : deps.ExtractApiGroupAndKind item with
    | error err => simp [syncItems, hextract] at hcall
    | ok kg =>
      obtain ⟨kind, group⟩ := kg
      cases herr : (SyncOneResource t item st).err with
      | some err =>
        simp only [syncItems, hextract, herr] at hcall
        exact ⟨item, List.mem_cons_self item rest, SyncOneResource_calls t item st call hcall⟩
      | none =>
        simp only [syncItems, hextract, herr, List.mem_append] at hcall
        rcases hcall with h | h
        · exact ⟨item, List.mem_cons_self item rest, SyncOneResource_calls t item st call h⟩
        · obtain ⟨r, hr, hcase⟩ := ih _ _ call h
          exact ⟨r, List.mem_cons_of_mem item hr, hcase⟩

theorem syncItems_append {σ : Type} (t : ThirdPartyController σ) (deps : Deps)
    (post : List ThirdPartyResource) :
    ∀ (pre : List ThirdPartyResource) (existing existing' : StringSet) (st : σ),
      (syncItems t deps pre existing st).existing = .ok existing' →
      syncItems t deps (pre ++ post) existing st =
        { existing := (syncItems t deps post existing'
            (syncItems t deps pre existing st).state).existing,
          calls := (syncItems t deps pre existing st).calls ++
            (syncItems t deps post existing' (syncItems t deps pre existing st).state).calls,
          state := (syncItems t deps post existing'
            (syncItems t deps pre existing st).state).state } := by
  intro pre
  induction pre with
  | nil =>
    intro existing existing' st hpre
    simp only [syncItems] at hpre
    injection hpre with hpre
    subst hpre
    simp [syncItems]
  | cons item rest ih =>
    intro existing existing' st hpre
    cases hextract : deps.ExtractApiGroupAndKind item with
    | error err => simp [syncItems, hextract] at hpre
    | ok kg =>
      obtain ⟨kind, group⟩ := kg
      cases herr : (SyncOneResource t item st).err with
      | some err => simp [syncItems, hextract, herr] at hpre
      | none =>
        simp only [syncItems, hextract, herr] at hpre
        have hrest := ih _ _ _ hpre
        rw [List.cons_append]
        simp only [syncItems, hextract, herr]
        rw [hrest]
        simp only [List.append_assoc]

/-- C16: let the desired list be `pre ++ item :: post`, let the loop get
through `pre` without error, and let group extraction, `HasAPI` or
`InstallThirdPartyAPI` fail with `e` for `item`. Then `SyncLoop` returns `e`;
the calls it made are those of the loop over `pre` followed by at most
`HasAPI` and `InstallThirdPartyAPI` for `item`; so every call is a `HasAPI` or
an `InstallThirdPartyAPI` for a resource of `pre` or for `item`: none for a
resource of `post`, no `ListThirdPartyAPIs` and no `RemoveAPI`. -/
theorem SyncLoop_fail_fast {σ : Type} (t : ThirdPartyController σ) (deps : Deps)
    (pre post : List ThirdPartyResource) (item : ThirdPartyResource) (st : σ)
    (existing : StringSet) (e : GoError)
    (hlist : t.thirdPartyResourceRegistry = .ok (.ThirdPartyResourceList (pre ++ item :: post)))
    (hpre : (syncItems t deps pre [] st).existing = .ok existing)
    (hfail : deps.ExtractApiGroupAndKind item = .error e ∨
      ((∃ kg, deps.ExtractApiGroupAndKind item = .ok kg) ∧
        ((t.master.HasAPI item (syncItems t deps pre [] st).state).1 = .error e ∨
          ((t.master.HasAPI item (syncItems t deps pre [] st).state).1 = .ok false ∧
            (t.master.InstallThirdPartyAPI item
              (t.master.HasAPI item (syncItems t deps pre [] st).state).2).1 = some e)))) :
    (SyncLoop t deps st).err = some e ∧
    (∃ failCalls, (SyncLoop t deps st).calls = (syncItems t deps pre [] st).calls ++ failCalls ∧
      ∀ call ∈ failCalls, call = .HasAPI item ∨ call = .InstallThirdPartyAPI item) ∧
    (∀ call ∈ (SyncLoop t deps st).calls,
      ∃ r ∈ pre ++ [item], call = .HasAPI r ∨ call = .InstallThirdPartyAPI r) := by
  have hsplit := syncItems_append t deps (item :: post) pre [] existing st hpre
  have hprecalls := syncItems_calls t deps pre [] st
  have hmain : (SyncLoop t deps st).err = some e ∧
      ∃ failCalls, (SyncLoop t deps st).calls = (syncItems t deps pre [] st).calls ++ failCalls ∧
        ∀ call ∈ failCalls, call = .HasAPI item ∨ call = .InstallThirdPartyAPI item := by
    rcases hfail with hextract | ⟨⟨⟨kind, group⟩, hextract⟩, hhas | ⟨hhas, hinstall⟩⟩
    · refine ⟨?_, [], ?_, by simp⟩
      · simp [SyncLoop, hlist, hsplit, syncItems, hextract]
      · simp [SyncLoop, hlist, hsplit, syncItems, hextract]
    · refine ⟨?_, [.HasAPI item], ?_, by simp⟩
      · simp [SyncLoop, hlist, hsplit, syncItems, hextract, SyncOneResource, hhas]
      · simp [SyncLoop, hlist, hsplit, syncItems, hextract, SyncOneResource, hhas]
    · refine ⟨?_, [.HasAPI item, .InstallThirdPartyAPI item], ?_, by simp⟩
      · simp [SyncLoop, hlist, hsplit, syncItems, hextract, SyncOneResource, hhas, hinstall]
      · simp [SyncLoop, hlist, hsplit, syncItems, hextract, SyncOneResource, hhas, hinstall]
  obtain ⟨herr, failCalls, hcalls, hfailCalls⟩ := hmain
  refine ⟨herr, ⟨failCalls, hcalls, hfailCalls⟩, ?_⟩
  intro call hcall
  rw [hcalls, List.mem_append] at hcall
  rcases hcall with h | h
  · obtain ⟨r, hr, hcase⟩ := hprecalls call h
    exact ⟨r, List.mem_append_left _ hr, hcase⟩
  · exact ⟨item, by simp, hfailCalls call h⟩

/-- Over the set of installed paths, starting empty: in the desired list
`foo.company.com`, `broken`, `bar.example.org` the second name has no group, so
the run returns that error after installing the first resource, with no call
for the third; from `SyncLoop_fail_fast`. -/
theorem SyncLoop_fail_fast_witness :
    (SyncLoop (setController sampleDeps
        [{ Name := "foo.company.com" }, { Name := "broken" }, { Name := "bar.example.org" }])
        sampleDeps []).err
      = some (.other "unexpectedly short resource name: broken") ∧
    (SyncLoop (setController sampleDeps
        [{ Name := "foo.company.com" }, { Name := "broken" }, { Name := "bar.example.org" }])
        sampleDeps []).calls
      = [.HasAPI { Name := "foo.company.com" },
         .InstallThirdPartyAPI { Name := "foo.company.com" }] :=
  ⟨(SyncLoop_fail_fast (setController sampleDeps
        [{ Name := "foo.company.com" }, { Name := "broken" }, { Name := "bar.example.org" }])
      sampleDeps [{ Name := "foo.company.com" }] [{ Name := "bar.example.org" }]
      { Name := "broken" } [] ["/thirdparty/company.com"]
      (.other "unexpectedly short resource name: broken") rfl rfl (Or.inl rfl)).1, rfl⟩

/-! ### Over the set of installed paths -/

theorem SyncOneResource_setMaster (deps : Deps) (items : List ThirdPartyResource)
    (item : ThirdPartyResource) (st : List String) (kind group : String)
    (hextract : deps.ExtractApiGroupAndKind item = .ok (kind, group)) :
    SyncOneResource (setController deps items) item st =
      if deps.makeThirdPartyPath group ∈ st then
        { err := none, calls := [.HasAPI item], state := st }
      else
        { err := none, calls := [.HasAPI item, .InstallThirdPartyAPI item],
          state := deps.makeThirdPartyPath group :: st } := by
  by_cases hmem : deps.makeThirdPartyPath group ∈ st
  · simp [SyncOneResource, setController, setMaster, hextract, hmem]
  · simp [SyncOneResource, setController, setMaster, hextract, hmem]

theorem desiredPaths_cons (deps : Deps) (item : ThirdPartyResource)
    (rest : List ThirdPartyResource) (kind group : String)
    (hextract : deps.ExtractApiGroupAndKind item = .ok (kind, group)) :
    desiredPaths deps (item :: rest) = deps.makeThirdPartyPath group :: desiredPaths deps rest := by
  simp [desiredPaths, List.filterMap_cons, hextract]

theorem syncItems_setMaster (deps : Deps) (items0 : List ThirdPartyResource) :
    ∀ (items : List ThirdPartyResource) (existing : StringSet) (st : List String),
      (∀ item ∈ items, ∃ kg, deps.ExtractApiGroupAndKind item = .ok kg) →
      ∃ existing', (syncItems (setController deps items0) deps items existing st).existing
          = .ok existing' ∧
        (∀ p, p ∈ existing' ↔ p ∈ existing ∨ p ∈ desiredPaths deps items) ∧
        (∀ p, p ∈ (syncItems (setController deps items0) deps items existing st).state ↔
          p ∈ st ∨ p ∈ desiredPaths deps items) ∧
        ((∀ p ∈ desiredPaths deps items, p ∈ st) →
          (syncItems (setController deps items0) deps items existing st).state = st ∧
          ∀ call ∈ (syncItems (setController deps items0) deps items existing st).calls,
            ∃ r, call = .HasAPI r) := by
  intro items
  induction items with
  | nil =>
    intro existing st _
    exact ⟨existing, by simp [syncItems], by simp [desiredPaths], by simp [syncItems, desiredPaths],
      fun _ => by simp [syncItems]⟩
  | cons item rest ih =>
    intro existing st hextract
    obtain ⟨⟨kind, group⟩, hitem⟩ := hextract item (List.mem_cons_self item rest)
    have hrest : ∀ r ∈ rest, ∃ kg, deps.ExtractApiGroupAndKind r = .ok kg :=
      fun r hr => hextract r (List.mem_cons_of_mem item hr)
    have hone := SyncOneResource_setMaster deps items0 item st kind group hitem
    have hpaths := desiredPaths_cons deps item rest kind group hitem
    by_cases hmem : deps.makeThirdPartyPath group ∈ st
    · rw [if_pos hmem] at hone
      obtain ⟨existing', hex, hexmem, hstmem, hfix⟩ :=
        ih (StringSet.Insert existing (deps.makeThirdPartyPath group)) st hrest
      have hunfold : syncItems (setController deps items0) deps (item :: rest) existing st =
          { existing := (syncItems (setController deps items0) deps rest
              (StringSet.Insert existing (deps.makeThirdPartyPath group)) st).existing,
            calls := [.HasAPI item] ++ (syncItems (setController deps items0) deps rest
              (StringSet.Insert existing (deps.makeThirdPartyPath group)) st).calls,
            state := (syncItems (setController deps items0) deps rest
              (StringSet.Insert existing (deps.makeThirdPartyPath group)) st).state } := by
        simp [syncItems, hitem, hone]
      rw [hunfold, hpaths]
      refine ⟨existing', hex, ?_, ?_, ?_⟩
      · intro p
        rw [hexmem p]
        simp only [StringSet.Insert, List.mem_cons]
        tauto
      · intro p
        simp only [hstmem p, List.mem_cons]
        constructor
        · intro h
          rcases h with h | h
          · exact Or.inl h
          · exact Or.inr (Or.inr h)
        · intro h
          rcases h with h | h | h
          · exact Or.inl h
          · exact Or.inl (h ▸ hmem)
          · exact Or.inr h
      · intro hall
        obtain ⟨hstate, hcalls⟩ := hfix (fun p hp => hall p (List.mem_cons_of_mem _ hp))
        refine ⟨hstate, ?_⟩
        intro call hcall
        simp only [List.singleton_append, List.mem_cons] at hcall
        rcases hcall with h | h
        · exact ⟨item, h⟩
        · exact hcalls call h
    · rw [if_neg hmem] at hone
      obtain ⟨existing', hex, hexmem, hstmem, _⟩ :=
        ih (StringSet.Insert existing (deps.makeThirdPartyPath group))
          (deps.makeThirdPartyPath group :: st) hrest
      have hunfold : syncItems (setController deps items0) deps (item :: rest) existing st =
          { existing := (syncItems (setController deps items0) deps rest
              (StringSet.Insert existing (deps.makeThirdPartyPath group))
              (deps.makeThirdPartyPath group :: st)).existing,
            calls := [.HasAPI item, .InstallThirdPartyAPI item] ++
              (syncItems (setController deps items0) deps rest
                (StringSet.Insert existing (deps.makeThirdPartyPath group))
                (deps.makeThirdPartyPath group :: st)).calls,
            state := (syncItems (setController deps items0) deps rest
              (StringSet.Insert existing (deps.makeThirdPartyPath group))
              (deps.makeThirdPartyPath group :: st)).state } := by
        simp [syncItems, hitem, hone]
      rw [hunfold, hpaths]
      refine ⟨existing', hex, ?_, ?_, ?_⟩
      · intro p
        rw [hexmem p]
        simp only [StringSet.Insert, List.mem_cons]
        tauto
      · intro p
        simp only [hstmem p, List.mem_cons]
        tauto
      · intro hall
        exact absurd (hall _ (List.mem_cons_self _ _)) hmem

theorem removeStale_setMaster (deps : Deps) (existing : StringSet) :
    ∀ (l st : List String),
      (∀ p, p ∈ (removeStale (setMaster deps) existing l st).2 ↔
        p ∈ st ∧ (p ∈ l → p ∈ existing)) ∧
      ((∀ p ∈ l, p ∈ existing) → removeStale (setMaster deps) existing l st = ([], st)) := by
  intro l
  induction l with
  | nil => intro st; simp [removeStale]
  | cons a rest ih =>
    intro st
    by_cases ha : a ∈ existing
    · have hstep : removeStale (setMaster deps) existing (a :: rest) st =
          removeStale (setMaster deps) existing rest st := by
        simp [removeStale, StringSet.Has, ha]
      rw [hstep]
      obtain ⟨hmem, hfix⟩ := ih st
      constructor
      · intro p
        rw [hmem p]
        constructor
        · rintro ⟨hp, himp⟩
          refine ⟨hp, fun h => ?_⟩
          rcases List.mem_cons.mp h with h | h
          · exact h ▸ ha
          · exact himp h
        · rintro ⟨hp, himp⟩
          exact ⟨hp, fun h => himp (List.mem_cons_of_mem a h)⟩
      · intro hall
        exact hfix (fun p hp => hall p (List.mem_cons_of_mem a hp))
    · have hstep : removeStale (setMaster deps) existing (a :: rest) st =
          (.RemoveAPI a :: (removeStale (setMaster deps) existing rest
              (st.filter (fun p => p ≠ a))).1,
            (removeStale (setMaster deps) existing rest (st.filter (fun p => p ≠ a))).2) := by
        simp [removeStale, StringSet.Has, ha, setMaster]
      rw [hstep]
      obtain ⟨hmem, _⟩ := ih (st.filter (fun p => p ≠ a))
      constructor
      · intro p
        simp only [hmem p, List.mem_filter, List.mem_cons, decide_eq_true_eq]
        constructor
        · rintro ⟨⟨hp, hne⟩, himp⟩
          refine ⟨hp, fun h => ?_⟩
          rcases h with h | h
          · exact absurd h hne
          · exact himp h
        · rintro ⟨hp, himp⟩
          refine ⟨⟨hp, fun h => ?_⟩, fun h => himp (Or.inr h)⟩
          exact ha (h ▸ himp (Or.inl h))
      · intro hall
        exact absurd (hall a (List.mem_cons_self a rest)) ha

theorem syncItems_ok_extract {σ : Type} (t : ThirdPartyController σ) (deps : Deps) :
    ∀ (items : List ThirdPartyResource) (existing existing' : StringSet) (st : σ),
      (syncItems t deps items existing st).existing = .ok existing' →
      ∀ item ∈ items, ∃ kg, deps.ExtractApiGroupAndKind item = .ok kg := by
  intro items
  induction items with
  | nil => intro _ _ _ _ item hitem; cases hitem
  | cons head rest ih =>
    intro existing existing' st hok item hitem
    cases hextract : deps.ExtractApiGroupAndKind head with
    | error err => simp [syncItems, hextract] at hok
    | ok kg =>
      obtain ⟨kind, group⟩ := kg
      cases herr : (SyncOneResource t head st).err with
      | some err => simp [syncItems, hextract, herr] at hok
      | none =>
        simp only [syncItems, hextract, herr] at hok
        rcases List.mem_cons.mp hitem with h | h
        · exact ⟨(kind, group), h ▸ hextract⟩
        · exact ih _ _ _ hok item h

theorem SyncLoop_setController (deps : Deps) (items : List ThirdPartyResource)
    (st : List String) (existing : StringSet)
    (hok : (syncItems (setController deps items) deps items [] st).existing = .ok existing) :
    SyncLoop (setController deps items) deps st =
      { err := none,
        calls := (syncItems (setController deps items) deps items [] st).calls ++
          .ListThirdPartyAPIs :: (removeStale (setMaster deps) existing
            (syncItems (setController deps items) deps items [] st).state
            (syncItems (setController deps items) deps items [] st).state).1,
        state := (removeStale (setMaster deps) existing
          (syncItems (setController deps items) deps items [] st).state
          (syncItems (setController deps items) deps items [] st).state).2 } := by
  have hreg : (setController deps items).thirdPartyResourceRegistry
      = .ok (.ThirdPartyResourceList items) := rfl
  have hmaster : (setController deps items).master = setMaster deps := rfl
  have hlist : ∀ st1, (setMaster deps).ListThirdPartyAPIs st1 = (st1, st1) := fun _ => rfl
  simp only [SyncLoop, hreg, hok, hmaster, hlist]

theorem SyncLoop_setController_ok (deps : Deps) (items : List ThirdPartyResource)
    (st : List String) (hnone : (SyncLoop (setController deps items) deps st).err = none) :
    ∃ existing, (syncItems (setController deps items) deps items [] st).existing = .ok existing := by
  have hreg : (setController deps items).thirdPartyResourceRegistry
      = .ok (.ThirdPartyResourceList items) := rfl
  cases hex : (syncItems (setController deps items) deps items [] st).existing with
  | error err => simp [SyncLoop, hreg, hex] at hnone
  | ok existing => exact ⟨existing, rfl⟩

/-- C14: over the API surface manager modelled as the set of installed paths,
with the group of every desired resource extractable (no call fails), one
`SyncLoop` returns no error and ends with exactly the desired paths installed,
from every initial set of installed paths: the empty one and every strict
superset of the desired set among them. So every stale path is removed and
no desired path is. -/
theorem SyncLoop_converges (deps : Deps) (items : List ThirdPartyResource)
    (installed : List String)
    (hextract : ∀ item ∈ items, ∃ kg, deps.ExtractApiGroupAndKind item = .ok kg) :
    (SyncLoop (setController deps items) deps installed).err = none ∧
    (∀ p, p ∈ (SyncLoop (setController deps items) deps installed).state ↔
      p ∈ desiredPaths deps items) ∧
    (∀ p ∈ installed, p ∉ desiredPaths deps items →
      p ∉ (SyncLoop (setController deps items) deps installed).state) := by
  obtain ⟨existing, hok, hexisting, hstate, _⟩ :=
    syncItems_setMaster deps items items [] installed hextract
  have hloop := SyncLoop_setController deps items installed existing hok
  have hremove := (removeStale_setMaster deps existing
    (syncItems (setController deps items) deps items [] installed).state
    (syncItems (setController deps items) deps items [] installed).state).1
  have hfinal : ∀ p, p ∈ (SyncLoop (setController deps items) deps installed).state ↔
      p ∈ desiredPaths deps items := by
    intro p
    rw [hloop]
    simp only [hremove p, hstate p, hexisting p, List.not_mem_nil, false_or]
    tauto
  refine ⟨by rw [hloop], hfinal, ?_⟩
  intro p _ hnot hin
  exact hnot ((hfinal p).mp hin)

/-- The desired list `foo.company.com`, `bar.example.org` over the set of
installed paths: from the empty set, and from a set that also holds the stale
path `/thirdparty/old.io`, one run ends with the two desired paths and no
other; from `SyncLoop_converges`. -/
theorem SyncLoop_converges_witness :
    ((SyncLoop (setController sampleDeps sampleResources) sampleDeps []).err = none ∧
      ∀ p, p ∈ (SyncLoop (setController sampleDeps sampleResources) sampleDeps []).state ↔
        p ∈ ["/thirdparty/company.com", "/thirdparty/example.org"]) ∧
    ((SyncLoop (setController sampleDeps sampleResources) sampleDeps
        ["/thirdparty/old.io", "/thirdparty/example.org", "/thirdparty/company.com"]).err
        = none ∧
      (SyncLoop (setController sampleDeps sampleResources) sampleDeps
        ["/thirdparty/old.io", "/thirdparty/example.org", "/thirdparty/company.com"]).state
        = ["/thirdparty/example.org", "/thirdparty/company.com"]) := by
  have hextract : ∀ item ∈ sampleResources,
      ∃ kg, sampleDeps.ExtractApiGroupAndKind item = .ok kg := by
    intro item hitem
    simp only [sampleResources, List.mem_cons, List.mem_singleton, List.not_mem_nil,
      or_false] at hitem
    rcases hitem with h | h
    · exact ⟨("foo", "company.com"), by rw [h]; rfl⟩
    · exact ⟨("bar", "example.org"), by rw [h]; rfl⟩
  have hempty := SyncLoop_converges sampleDeps sampleResources [] hextract
  have hsuperset := SyncLoop_converges sampleDeps sampleResources
    ["/thirdparty/old.io", "/thirdparty/example.org", "/thirdparty/company.com"] hextract
  exact ⟨⟨hempty.1, hempty.2.1⟩, ⟨hsuperset.1, rfl⟩⟩

/-- C15: over the set of installed paths, if `SyncLoop` succeeds and is run
again with the same desired list, the second run returns no error, calls only
`HasAPI` and `ListThirdPartyAPIs`, so neither `InstallThirdPartyAPI` nor
`RemoveAPI`, and leaves the installed set as it was. -/
theorem SyncLoop_idempotent (deps : Deps) (items : List ThirdPartyResource)
    (installed : List String)
    (hfirst : (SyncLoop (setController deps items) deps installed).err = none) :
    (SyncLoop (setController deps items) deps
      (SyncLoop (setController deps items) deps installed).state).err = none ∧
    (SyncLoop (setController deps items) deps
      (SyncLoop (setController deps items) deps installed).state).state
      = (SyncLoop (setController deps items) deps installed).state ∧
    (∀ call ∈ (SyncLoop (setController deps items) deps
        (SyncLoop (setController deps items) deps installed).state).calls,
      (∃ r, call = .HasAPI r) ∨ call = .ListThirdPartyAPIs) := by
  obtain ⟨existing0, hok0⟩ := SyncLoop_setController_ok deps items installed hfirst
  have hextract := syncItems_ok_extract (setController deps items) deps items [] existing0
    installed hok0
  obtain ⟨existingA, hokA, hexistingA, hstateA, _⟩ :=
    syncItems_setMaster deps items items [] installed hextract
  have hremoveA := (removeStale_setMaster deps existingA
    (syncItems (setController deps items) deps items [] installed).state
    (syncItems (setController deps items) deps items [] installed).state).1
  have hloopA := SyncLoop_setController deps items installed existingA hokA
  have hfinal : ∀ p, p ∈ (SyncLoop (setController deps items) deps installed).state ↔
      p ∈ desiredPaths deps items := by
    intro p
    rw [hloopA]
    simp only [hremoveA p, hstateA p, hexistingA p, List.not_mem_nil, false_or]
    tauto
  generalize (SyncLoop (setController deps items) deps installed).state = st1 at hfinal ⊢
  obtain ⟨existing, hok, hexisting, _, hfix⟩ :=
    syncItems_setMaster deps items items [] st1 hextract
  obtain ⟨hstate, hcalls⟩ := hfix (fun p hp => (hfinal p).mpr hp)
  have hloop := SyncLoop_setController deps items st1 existing hok
  have hkeep : removeStale (setMaster deps) existing st1 st1 = ([], st1) := by
    apply (removeStale_setMaster deps existing st1 st1).2
    intro p hp
    rw [hexisting p]
    exact Or.inr ((hfinal p).mp hp)
  rw [hstate, hkeep] at hloop
  rw [hloop]
  refine ⟨rfl, rfl, ?_⟩
  intro call hcall
  simp only [List.mem_append, List.mem_singleton] at hcall
  rcases hcall with h | h
  · exact Or.inl (hcalls call h)
  · exact Or.inr h

/-- After one run from the empty set, a second run with the same desired list
calls `HasAPI` for the two resources and `ListThirdPartyAPIs`, and nothing
else; from `SyncLoop_idempotent`. -/
theorem SyncLoop_idempotent_witness :
    (SyncLoop (setController sampleDeps sampleResources) sampleDeps
      (SyncLoop (setController sampleDeps sampleResources) sampleDeps []).state).state
      = (SyncLoop (setController sampleDeps sampleResources) sampleDeps []).state ∧
    (SyncLoop (setController sampleDeps sampleResources) sampleDeps
      (SyncLoop (setController sampleDeps sampleResources) sampleDeps []).state).calls
      = [.HasAPI { Name := "foo.company.com" }, .HasAPI { Name := "bar.example.org" },
         .ListThirdPartyAPIs] :=
  ⟨(SyncLoop_idempotent sampleDeps sampleResources [] rfl).2.1, rfl⟩

end Master
